import Mathlib

/-! # ego/mns: the MNS queue/topic client

A shallow embedding of `mns/mns.go`: the message envelope and its signature,
the process-wide client with its queue and topic registries, publishing to a
topic, and the receive / dispatch / acknowledge cycle of a queue.

Modelling conventions

* Go pointers (`*Client`, `*Queue`, `*Topic`) are addresses into heaps kept in
  `World`; the package variable `client` is `World.client`, `none` being `nil`.
* A Go `map[string]*T` is an association list from names to addresses; a nil
  map is `none`.
* A Go `error` is `Option GoError` (`none` is `nil`); a `(value, error)` pair
  coming from a library is an `Except`.
* Everything outside `mns.go` (the Aliyun SDK, `encoding/json`,
  `encoding/base64`, `os.Getenv`, the `library` and `log` helpers) is a field of
  `Env`: the code is verified for every behaviour of these collaborators.
* The cycle of `Queue.ReceiveMessage` runs two goroutines over unbuffered
  channels; it is a small-step relation `Step` on `Config`.
* A panic (the call of a nil handler, the read of `client.conf` through a nil
  `client`, a write to a nil map, an SDK constructor refusing its argument) is
  an outcome of its own, never a return.
* `Queue.SendMessage` and the method `Params.generateSign`, which nothing calls,
  take no part in the properties below and are not embedded.
-/

namespace Mns

/-! ## Data model -/

/-- A Go `error` value, identified with its message. -/
abbrev GoError := String

deriving instance DecidableEq for Except

/-- The Go struct `Conf`. -/
structure Conf where
  Url : String
  AccessKeyId : String
  AccessKeySecret : String
deriving DecidableEq, Repr

/-- The connection `ali_mns.NewAliMNSClient(url, id, secret)` returns when it
returns; the SDK is external, so a connection is known by the arguments it was
built from. -/
structure MNSClient where
  url : String
  accessKeyId : String
  accessKeySecret : String
deriving DecidableEq, Repr

/-- The handle `ali_mns.NewMNSQueue(name, conn)` returns when it returns; `conn`
is the client's connection field, a nil interface (`none`) on a client that was
never initialised. -/
structure AliMNSQueue where
  name : String
  conn : Option MNSClient
deriving DecidableEq, Repr

/-- The handle `ali_mns.NewMNSTopic(name, conn)` returns when it returns. -/
structure AliMNSTopic where
  name : String
  conn : Option MNSClient
deriving DecidableEq, Repr

/-- The payload `Content interface{}` of an envelope: some Go values, among
them one (`channel`) that `encoding/json` cannot serialise. -/
inductive Content where
  | null
  | text (s : String)
  | channel
deriving DecidableEq, Repr

/-- The Go struct `Params`, the message envelope. -/
structure Params where
  Content : Content
  Tag : String
  TraceId : String
  ReferServiceName : String
  Sign : String
deriving DecidableEq, Repr

/-- The Go type `QueueHandler`, `func(params Params) error`. The handler is a
total function: it is assumed to return. -/
abbrev QueueHandler := Params → Option GoError

/-- The Go struct `Queue`. `Handler` is `none` for a nil handler. The field
`inst` is the Go field `instance`, a bound handle: `GetQueue` and `AddQueue` set
one before they register a queue. -/
structure Queue where
  Name : String
  inst : AliMNSQueue
  Handler : Option QueueHandler
  WaitSecond : Int

/-- The Go struct `Topic`; `inst` is the Go field `instance`. -/
structure Topic where
  Name : String
  inst : AliMNSTopic
deriving DecidableEq, Repr

/-- A Go `map[string]*T` that is not nil: names with the address stored under
each. -/
abbrev GoMap := List (String × Nat)

/-- The map read `m[name]` with its `ok` flag. -/
def GoMap.lookup (name : String) : GoMap → Option Nat
  | [] => none
  | (k, v) :: rest => if k = name then some v else GoMap.lookup name rest

/-- The map write `m[name] = v`. -/
def GoMap.insert (name : String) (v : Nat) : GoMap → GoMap
  | [] => [(name, v)]
  | (k, x) :: rest =>
    if k = name then (k, v) :: rest else (k, x) :: GoMap.insert name v rest

/-- The Go struct `Client`; `inst` is the Go field `instance`, a nil interface
(`none`) until `InitClient` sets it. -/
structure Client where
  conf : Conf
  inst : Option MNSClient
  queueItems : Option GoMap
  topicItems : Option GoMap
deriving DecidableEq, Repr

/-- A goroutine started by `go item.ReceiveMessage(int64(item.WaitSecond))`:
the queue it listens on and the argument it was given. -/
structure ListenTask where
  queue : Nat
  waitSeconds : Int
deriving DecidableEq, Repr

/-- The memory of the process as far as `mns.go` touches it. -/
structure World where
  /-- The package variable `var client *Client`. -/
  client : Option Nat
  /-- The heap of `Client` objects. -/
  clients : Nat → Client
  /-- The address the next allocated `Client` gets. -/
  nextClient : Nat
  /-- The heap of `Queue` objects. -/
  queues : Nat → Queue
  /-- The address the next allocated `Queue` gets. -/
  nextQueue : Nat
  /-- The heap of `Topic` objects. -/
  topics : Nat → Topic
  /-- The address the next allocated `Topic` gets. -/
  nextTopic : Nat
  /-- The goroutines started by `ListenQueues`, oldest first. -/
  goroutines : List ListenTask

/-- A heap with the object at address `a` replaced by `v`. -/
def store {α : Type} (heap : Nat → α) (a : Nat) (v : α) : Nat → α :=
  fun x => if x = a then v else heap x

/-! ## Envelope signature -/

/-- The method `Params.GenerateSign`: `library.GetMd5String(params.TraceId + key)`.
The digest `GetMd5String` is a parameter. -/
def Params.GenerateSign (GetMd5String : String → String) (params : Params)
    (key : String) : String :=
  GetMd5String (params.TraceId ++ key)

/-! ## Collaborators and observable effects -/

/-- The SDK struct `ali_mns.MessagePublishRequest`, as far as it is filled. -/
structure MessagePublishRequest where
  MessageBody : String
  MessageTag : String
deriving DecidableEq, Repr

/-- The SDK struct `ali_mns.MessageSendResponse`, as far as it is read. -/
structure MessageSendResponse where
  MessageId : String
  Code : String
deriving DecidableEq, Repr

/-- The SDK struct `ali_mns.MessageReceiveResponse`, as far as it is read. -/
structure MessageReceiveResponse where
  MessageBody : String
  ReceiptHandle : String
deriving DecidableEq, Repr

/-- A value stored in a `log.Context`. -/
inductive LogValue where
  | str (s : String)
  | content (c : Content)
deriving DecidableEq, Repr

/-- The Go type `log.Context`, a map from keys to values, kept as the
assignments made to it, in order. -/
abbrev LogContext := List (String × LogValue)

/-- What a call of `mns.go` does to the outside world. -/
inductive Event where
  /-- The transport call `topic.instance.PublishMessage(request)`. -/
  | publish (topic : AliMNSTopic) (request : MessagePublishRequest)
  /-- The transport call `queue.instance.ReceiveMessage(_, _, waitSeconds)`. -/
  | receive (queue : AliMNSQueue) (waitSeconds : Int)
  /-- The transport call `queue.instance.DeleteMessage(receiptHandle)`. -/
  | delete (queue : AliMNSQueue) (receiptHandle : String)
  /-- A call `queue.Handler(params)` that returned `result`. -/
  | handler (params : Params) (result : Option GoError)
  /-- The observability record `log.Mq().Info(action, context)`. -/
  | info (action : String) (context : LogContext)
  /-- The call `library.Debug(args...)`. -/
  | debug (args : List String)
deriving DecidableEq, Repr

/-- The collaborators of `mns.go`: the standard library, the Aliyun transport
and the `library` helpers, each with whatever behaviour it has. -/
structure Env where
  /-- `json.Marshal(params)`. -/
  marshal : Params → Except GoError String
  /-- `json.Unmarshal(bytes, &params)` into a zero `Params`. -/
  unmarshal : String → Except GoError Params
  /-- `base64.StdEncoding.EncodeToString`. -/
  encodeBase64 : String → String
  /-- `library.DecodeBase64Str`. -/
  DecodeBase64Str : String → String
  /-- `library.GetMd5String`. -/
  GetMd5String : String → String
  /-- The identifier `library.UniqueId()` returns when it is called. -/
  UniqueId : String
  /-- `os.Getenv(constant.SystemNameKey)`. -/
  systemName : String
  /-- `library.GetTimeStr()`. -/
  GetTimeStr : String
  /-- `library.GetTimeStampFloatStr()`. -/
  GetTimeStampFloatStr : String
  /-- `library.GetTraceId()`. -/
  GetTraceId : String
  /-- Whether `ali_mns.NewAliMNSClient` can read a non-empty Url as an endpoint of
  the service; it panics on one it cannot. -/
  acceptsUrl : String → Bool
  /-- What the transport answers to `PublishMessage` on a topic. -/
  topicPublish : AliMNSTopic → MessagePublishRequest → Except GoError MessageSendResponse
  /-- What the long poll on a queue ends with: a message, or an error (also
  when the poll window elapses). The SDK sends it on `respChan` or `errChan`. -/
  queueReceive : AliMNSQueue → Int → Except GoError MessageReceiveResponse
  /-- What the transport answers to `DeleteMessage` on a queue. -/
  queueDelete : AliMNSQueue → String → Option GoError

/-- How a call ends: it returns a value, or it panics (a nil dereference, a
call of a nil function, a write to a nil map). -/
inductive Outcome (α : Type) where
  | returned (value : α)
  | panicked
deriving DecidableEq, Repr

/-! ## The constructors of the SDK

Each of them panics on an argument it does not accept; `none` is that panic. -/

/-- Whether `ali_mns.NewAliMNSClient` accepts the Url: it panics on the empty
Url, and on a Url it cannot read as an endpoint. -/
def Env.accepts (env : Env) (url : String) : Bool :=
  if url = "" then false else env.acceptsUrl url

/-- The constructor `ali_mns.NewAliMNSClient`. -/
def NewAliMNSClient (env : Env) (url accessKeyId accessKeySecret : String) :
    Option MNSClient :=
  if env.accepts url then some ⟨url, accessKeyId, accessKeySecret⟩ else none

/-- The constructor `ali_mns.NewMNSQueue`: it panics on the empty name. -/
def NewMNSQueue (name : String) (conn : Option MNSClient) : Option AliMNSQueue :=
  if name = "" then none else some ⟨name, conn⟩

/-- The constructor `ali_mns.NewMNSTopic`: it panics on the empty name. -/
def NewMNSTopic (name : String) (conn : Option MNSClient) : Option AliMNSTopic :=
  if name = "" then none else some ⟨name, conn⟩

/-! ## Topic -/

/-- Lines 76 to 78 of `Topic.PublishMessage`: the service name written into the
local copy of `params` when it has none. -/
def PublishMessage.named (env : Env) (params : Params) : Params :=
  if params.ReferServiceName = "" then
    { params with ReferServiceName := env.systemName }
  else params

/-- Lines 80 to 82 of `Topic.PublishMessage`: the trace id written into the
local copy of `params` when it has none. -/
def PublishMessage.traced (env : Env) (params : Params) : Params :=
  if params.TraceId = "" then { params with TraceId := env.UniqueId } else params

/-- Lines 84 to 86 of `Topic.PublishMessage`: the signature written into the
local copy of `params` when it has none. `none` is the panic of reading
`client.conf` through a nil `client`. -/
def PublishMessage.signed (env : Env) (w : World) (params : Params) : Option Params :=
  if params.Sign = "" then
    match w.client with
    | none => none
    | some a =>
      some { params with
        Sign := params.GenerateSign env.GetMd5String (w.clients a).conf.AccessKeySecret }
  else some params

/-- Lines 76 to 86 of `Topic.PublishMessage`: the three defaults, in the order
of the source. -/
def PublishMessage.defaults (env : Env) (w : World) (params : Params) : Option Params :=
  PublishMessage.signed env w (PublishMessage.traced env (PublishMessage.named env params))

/-- The log context built at the end of `Topic.PublishMessage`. -/
def PublishMessage.logContext (env : Env) (topic : Topic) (params : Params)
    (filterTag : String) (resp : MessageSendResponse) : LogContext :=
  [("action", .str "publishMessage"),
   ("publish_time", .str env.GetTimeStr),
   ("msectime", .str env.GetTimeStampFloatStr),
   ("message_id", .str resp.MessageId),
   ("status_code", .str resp.Code),
   ("topic_name", .str topic.Name),
   ("message_tag", .str params.Tag),
   ("global_trace_id", .str env.GetTraceId),
   ("trace_id", .str params.TraceId),
   ("filter_tag", .str filterTag),
   ("sign", .str params.Sign)]

/-- The method `Topic.PublishMessage`: the pair it returns (a nil pointer or a
nil error is `none`) and the events it causes, in order. -/
def PublishMessage (env : Env) (w : World) (topic : Topic) (params : Params)
    (filterTag : String) :
    Outcome (Option MessageSendResponse × Option GoError) × List Event :=
  match env.marshal params with
  | .error err => (.returned (none, some err), [])
  | .ok bytes =>
    match PublishMessage.defaults env w params with
    | none => (.panicked, [])
    | some params =>
      let request : MessagePublishRequest :=
        { MessageBody := env.encodeBase64 bytes, MessageTag := filterTag }
      match env.topicPublish topic.inst request with
      | .error err => (.returned (none, some err), [.publish topic.inst request])
      | .ok resp =>
        (.returned (some resp, none),
         [.publish topic.inst request,
          .info "publishMessage" (PublishMessage.logContext env topic params filterTag resp)])

/-! ## Client registry -/

/-- A Go map field read for iteration or lookup: a nil map reads as empty. -/
def entries (m : Option GoMap) : GoMap :=
  match m with
  | none => []
  | some items => items

/-- The function `InitClient`: the pointer it returns, or the panic of
`ali_mns.NewAliMNSClient`, and the memory it leaves in either case. The client
is allocated before the connection is built. -/
def InitClient (env : Env) (conf : Conf) (w : World) : Outcome Nat × World :=
  let (a, w) :=
    match w.client with
    | some a => (a, w)
    | none =>
      let a := w.nextClient
      let fresh : Client :=
        { conf := conf, inst := none, queueItems := some [], topicItems := some [] }
      (a, { w with client := some a, clients := store w.clients a fresh, nextClient := a + 1 })
  match NewAliMNSClient env conf.Url conf.AccessKeyId conf.AccessKeySecret with
  | none => (.panicked, w)
  | some conn =>
    (.returned a, { w with clients := store w.clients a { w.clients a with inst := some conn } })

/-- The function `GetClient`. -/
def GetClient (w : World) : Option Nat := w.client

/-- The method `Client.GetTopic` on the client at address `a`: the pointer it
returns (`none` is nil), or the panic of `ali_mns.NewMNSTopic`, and the memory
it leaves in either case. A nil registry is allocated first; the entry is
written after the topic is built. -/
def GetTopic (a : Nat) (name : String) (w : World) : Outcome (Option Nat) × World :=
  let c := w.clients a
  let items := entries c.topicItems
  match GoMap.lookup name items with
  | some _ =>
    (.returned (GoMap.lookup name items),
     { w with clients := store w.clients a { c with topicItems := some items } })
  | none =>
    match NewMNSTopic name c.inst with
    | none =>
      (.panicked, { w with clients := store w.clients a { c with topicItems := some items } })
    | some handle =>
      let t := w.nextTopic
      let fresh : Topic := { Name := name, inst := handle }
      let items := GoMap.insert name t items
      (.returned (GoMap.lookup name items),
       { w with
         topics := store w.topics t fresh
         nextTopic := t + 1
         clients := store w.clients a { c with topicItems := some items } })

/-- The method `Client.GetQueue` on the client at address `a`: the pointer it
returns (`none` is nil), or the panic of `ali_mns.NewMNSQueue`, and the memory
it leaves in either case. A nil registry is allocated first; the entry is
written after the queue is built. -/
def GetQueue (a : Nat) (name : String) (w : World) : Outcome (Option Nat) × World :=
  let c := w.clients a
  let items := entries c.queueItems
  match GoMap.lookup name items with
  | some _ =>
    (.returned (GoMap.lookup name items),
     { w with clients := store w.clients a { c with queueItems := some items } })
  | none =>
    match NewMNSQueue name c.inst with
    | none =>
      (.panicked, { w with clients := store w.clients a { c with queueItems := some items } })
    | some handle =>
      let q := w.nextQueue
      let fresh : Queue := { Name := name, inst := handle, Handler := none, WaitSecond := 0 }
      let items := GoMap.insert name q items
      (.returned (GoMap.lookup name items),
       { w with
         queues := store w.queues q fresh
         nextQueue := q + 1
         clients := store w.clients a { c with queueItems := some items } })

/-- The method `Client.AddQueue` on the client at address `a`, for the queue at
address `q`. `ali_mns.NewMNSQueue` panics on an empty name, and writing to a nil
map panics. -/
def AddQueue (a : Nat) (q : Nat) (w : World) : Outcome World :=
  let c := w.clients a
  match NewMNSQueue (w.queues q).Name c.inst with
  | none => .panicked
  | some handle =>
    let queue : Queue := { w.queues q with inst := handle }
    let w : World := { w with queues := store w.queues q queue }
    match c.queueItems with
    | none => .panicked
    | some items =>
      .returned { w with
        clients := store w.clients a
          { c with queueItems := some (GoMap.insert queue.Name q items) } }

/-- The method `Queue.SetHandler` on the queue at address `q`. -/
def SetHandler (q : Nat) (handler : Option QueueHandler) (w : World) : World :=
  { w with queues := store w.queues q { w.queues q with Handler := handler } }

/-- The loop of `Client.ListenQueues` over the entries of the registry. Go
visits a map in an unspecified order; the entries are taken in the order they
are kept in. -/
def listenLoop : GoMap → World → World
  | [], w => w
  | (_, item) :: rest, w =>
    match (w.queues item).Handler with
    | none => listenLoop rest w
    | some _ =>
      listenLoop rest
        { w with goroutines := w.goroutines ++ [⟨item, (w.queues item).WaitSecond⟩] }

/-- The method `Client.ListenQueues` on the client at address `a`. -/
def ListenQueues (a : Nat) (w : World) : World :=
  let items := entries (w.clients a).queueItems
  if items.length = 0 then w else listenLoop items w

/-- How successive calls of `InitClient` end, one for each configuration, and
the memory after the last; a call that panicked is followed by the next as in a
caller that recovers. -/
def initCalls (env : Env) : List Conf → World → List (Outcome Nat) × World
  | [], w => ([], w)
  | conf :: rest, w =>
    let r := InitClient env conf w
    let more := initCalls env rest r.2
    (r.1 :: more.1, more.2)

/-- What one call of `InitClient` answers: the pointer `a` when the SDK accepts
the Url, a panic when it does not. -/
def initAnswer (env : Env) (a : Nat) (conf : Conf) : Outcome Nat :=
  if env.accepts conf.Url then .returned a else .panicked

/-- Every registered queue and every registered topic lies at an address that
was allocated: the state of a heap in which nothing dangles. -/
def World.Allocated (w : World) : Prop :=
  (∀ a name p, GoMap.lookup name (entries (w.clients a).queueItems) = some p →
    p < w.nextQueue) ∧
  (∀ a name t, GoMap.lookup name (entries (w.clients a).topicItems) = some t →
    t < w.nextTopic)

/-- The tasks `ListenQueues` starts for the entries `items` in the memory `w`:
one for each entry whose queue has a handler. -/
def listenTasks (w : World) (items : GoMap) : List ListenTask :=
  items.filterMap fun entry =>
    match (w.queues entry.2).Handler with
    | none => none
    | some _ => some ⟨entry.2, (w.queues entry.2).WaitSecond⟩

/-- Whether the queue at address `q` has a handler. -/
def hasHandler (w : World) (q : Nat) : Bool := (w.queues q).Handler.isSome

/-! ## Queue: the receive cycle -/

/-- The method `Queue.DeleteMessage`: the transport call it makes and the error
it returns. -/
def DeleteMessage (env : Env) (queue : Queue) (receiptHandler : String) :
    Option GoError × List Event :=
  (env.queueDelete queue.inst receiptHandler, [.delete queue.inst receiptHandler])

/-- The method `Queue.GetLogContext`. -/
def GetLogContext (env : Env) (queue : Queue) (_actionName : String) : LogContext :=
  [("queue_name", .str queue.Name), ("receiveTime", .str env.GetTimeStr)]

/-- Where the goroutine that called `Queue.ReceiveMessage` stands. -/
inductive MainPc where
  /-- The channels exist, the worker is started; about to call the SDK. -/
  | callReceive
  /-- Inside the SDK, blocked on the send of the poll's result on `respChan`
  (a message) or `errChan` (an error). -/
  | sending (result : Except GoError MessageReceiveResponse)
  /-- The send went through; the SDK is about to return. -/
  | sdkReturn
  /-- Blocked on `<-endChan`. -/
  | waitEnd
  /-- It returned to its caller. -/
  | returned
deriving DecidableEq, Repr

/-- Where the goroutine started by `go func() { select ... }()` stands. -/
inductive WorkerPc where
  /-- Blocked in `select` on `respChan` and `errChan`. -/
  | select
  /-- It received `resp`; about to decode the body. -/
  | gotResp (resp : MessageReceiveResponse)
  /-- The body decoded into `params`; about to call `queue.Handler(params)`. -/
  | dispatch (resp : MessageReceiveResponse) (params : Params)
  /-- The handler returned nil; about to delete the message. -/
  | acknowledge (resp : MessageReceiveResponse)
  /-- It received `err`; about to log it. -/
  | gotErr (err : GoError)
  /-- Blocked on `endChan <- 1`. -/
  | sendEnd
  /-- The function body ended. -/
  | done
  /-- It panicked, which ends the process. -/
  | panicked
deriving DecidableEq, Repr

/-- A state of one `Queue.ReceiveMessage` cycle: both goroutines and the events
so far, oldest first. -/
structure Config where
  main : MainPc
  worker : WorkerPc
  trace : List Event
deriving DecidableEq, Repr

/-- The wait time the cycle polls with: `if waitSeconds == 0 { waitSeconds = 30 }`. -/
def pollSeconds (waitSeconds : Int) : Int :=
  if waitSeconds = 0 then 30 else waitSeconds

/-- The state after `go func() {...}()`, before the SDK is called. -/
def Config.init : Config := ⟨.callReceive, .select, []⟩

/-- Whether the process is dead. -/
def Config.crashed (c : Config) : Bool :=
  match c.worker with
  | .panicked => true
  | _ => false

/-- One step of the worker on its own: the place it gets to and the events it
causes. `none` where it is blocked on a channel or has ended. -/
def workerLocal (env : Env) (queue : Queue) : WorkerPc → Option (WorkerPc × List Event)
  | .gotResp resp =>
    let context := GetLogContext env queue "receiveMessage"
    match env.unmarshal (env.DecodeBase64Str resp.MessageBody) with
    | .error err =>
      some (.done, [.debug ["消息结构异常:", queue.Name, err, resp.MessageBody]])
    | .ok params =>
      let context := context ++
        [("messageBody", .content params.Content), ("tag", .str params.Tag),
         ("trace_id", .str params.TraceId)]
      some (.dispatch resp params, [.info "mns_receive" context])
  | .dispatch resp params =>
    match queue.Handler with
    | none => some (.panicked, [])
    | some handler =>
      match handler params with
      | some err =>
        some (.done, [.handler params (some err), .debug ["处理消息失败:", queue.Name, err]])
      | none => some (.acknowledge resp, [.handler params none])
  | .acknowledge resp =>
    match DeleteMessage env queue resp.ReceiptHandle with
    | (some err, events) =>
      some (.sendEnd, events ++ [.debug ["删除消息失败:", queue.Name, err]])
    | (none, events) => some (.sendEnd, events ++ [.debug ["删除消息成功:", queue.Name]])
  | .gotErr err => some (.sendEnd, [.debug [err]])
  | .select => none
  | .sendEnd => none
  | .done => none
  | .panicked => none

/-- A step of the worker alone. -/
def workerStep (env : Env) (queue : Queue) (c : Config) : Option Config :=
  match workerLocal env queue c.worker with
  | none => none
  | some (pc, events) => some { c with worker := pc, trace := c.trace ++ events }

/-- A step of the caller alone: the SDK issues the poll, or returns. -/
def mainStep (env : Env) (queue : Queue) (waitSeconds : Int) (c : Config) : Option Config :=
  if c.crashed then none
  else
    match c.main with
    | .callReceive =>
      some { c with
        main := .sending (env.queueReceive queue.inst (pollSeconds waitSeconds))
        trace := c.trace ++ [.receive queue.inst (pollSeconds waitSeconds)] }
    | .sdkReturn => some { c with main := .waitEnd }
    | _ => none

/-- A step of both goroutines together: a send and a receive on the same
unbuffered channel. -/
def syncStep (c : Config) : Option Config :=
  match c.main, c.worker with
  | .sending (.ok resp), .select => some { c with main := .sdkReturn, worker := .gotResp resp }
  | .sending (.error err), .select => some { c with main := .sdkReturn, worker := .gotErr err }
  | .waitEnd, .sendEnd => some { c with main := .returned, worker := .done }
  | _, _ => none

/-- The step relation of one cycle of `queue.ReceiveMessage(waitSeconds)`. -/
inductive Step (env : Env) (queue : Queue) (waitSeconds : Int) : Config → Config → Prop where
  | main {c c1 : Config} : mainStep env queue waitSeconds c = some c1 →
      Step env queue waitSeconds c c1
  | worker {c c1 : Config} : workerStep env queue c = some c1 →
      Step env queue waitSeconds c c1
  | sync {c c1 : Config} : syncStep c = some c1 → Step env queue waitSeconds c c1

/-- The states the cycle can get to. -/
def Reachable (env : Env) (queue : Queue) (waitSeconds : Int) (c : Config) : Prop :=
  Relation.ReflTransGen (Step env queue waitSeconds) Config.init c

/-- No step is left: every goroutine has ended or is blocked for good. -/
def Terminal (env : Env) (queue : Queue) (waitSeconds : Int) (c : Config) : Prop :=
  ∀ c1, ¬ Step env queue waitSeconds c c1

/-- One scheduler: the worker runs whenever it can, then a channel operation,
then the caller. -/
def schedule (env : Env) (queue : Queue) (waitSeconds : Int) (c : Config) : Option Config :=
  match workerStep env queue c with
  | some c1 => some c1
  | none =>
    match syncStep c with
    | some c1 => some c1
    | none => mainStep env queue waitSeconds c

/-- The state after at most `fuel` steps under `schedule`. -/
def run (env : Env) (queue : Queue) (waitSeconds : Int) : Nat → Config → Config
  | 0, c => c
  | fuel + 1, c =>
    match schedule env queue waitSeconds c with
    | none => c
    | some c1 => run env queue waitSeconds fuel c1

/-- The method `Queue.ReceiveMessage` under `schedule`: the state the cycle
ends in. No execution has more than eight steps. -/
def ReceiveMessage (env : Env) (queue : Queue) (waitSeconds : Int) : Config :=
  run env queue waitSeconds 8 Config.init

/-- The receipt handles `DeleteMessage` was invoked with, in order. -/
def deleteCalls : List Event → List String
  | [] => []
  | .delete _ receiptHandle :: rest => receiptHandle :: deleteCalls rest
  | _ :: rest => deleteCalls rest

/-- The transport calls of `PublishMessage` in a list of events. -/
def publishCalls : List Event → List MessagePublishRequest
  | [] => []
  | .publish _ request :: rest => request :: publishCalls rest
  | _ :: rest => publishCalls rest

/-- The observability records in a list of events. -/
def infoRecords : List Event → List (String × LogContext)
  | [] => []
  | .info action context :: rest => (action, context) :: infoRecords rest
  | _ :: rest => infoRecords rest

/-! ## The cycle as one function -/

/-- The worker's place and the trace after at most `k` steps of its own. -/
def workerRun (env : Env) (queue : Queue) :
    Nat → WorkerPc × List Event → WorkerPc × List Event
  | 0, s => s
  | k + 1, s =>
    match workerLocal env queue s.1 with
    | none => s
    | some (pc, events) => workerRun env queue k (pc, s.2 ++ events)

/-- The place the worker is in once `select` has received the poll's result. -/
def WorkerPc.received : Except GoError MessageReceiveResponse → WorkerPc
  | .ok resp => .gotResp resp
  | .error err => .gotErr err

/-- The worker's place and the trace when the SDK has handed over the poll's
result. -/
def cycleStart (env : Env) (queue : Queue) (waitSeconds : Int) : WorkerPc × List Event :=
  (WorkerPc.received (env.queueReceive queue.inst (pollSeconds waitSeconds)),
   [.receive queue.inst (pollSeconds waitSeconds)])

/-- The place the worker ends in and the whole trace of a cycle: the worker has
at most three steps of its own to take. -/
def cycleEnd (env : Env) (queue : Queue) (waitSeconds : Int) : WorkerPc × List Event :=
  workerRun env queue 3 (cycleStart env queue waitSeconds)

/-- The case in which the cycle deletes: a message arrived, its body decoded
and the handler returned nil; `receipt` is the message's receipt handle. -/
def Acknowledges (env : Env) (queue : Queue) (waitSeconds : Int) (receipt : String) : Prop :=
  ∃ resp params handler,
    env.queueReceive queue.inst (pollSeconds waitSeconds) = .ok resp ∧
    env.unmarshal (env.DecodeBase64Str resp.MessageBody) = .ok params ∧
    queue.Handler = some handler ∧ handler params = none ∧
    resp.ReceiptHandle = receipt

/-- How many steps the worker has left at most. -/
def WorkerPc.rank : WorkerPc → Nat
  | .select => 4
  | .gotResp _ => 3
  | .dispatch _ _ => 2
  | .acknowledge _ => 1
  | .gotErr _ => 1
  | .sendEnd => 0
  | .done => 0
  | .panicked => 0

/-- How many steps the caller has left at most. -/
def MainPc.rank : MainPc → Nat
  | .callReceive => 4
  | .sending _ => 3
  | .sdkReturn => 2
  | .waitEnd => 1
  | .returned => 0

/-- A bound on the steps left in a state. -/
def Config.rank (c : Config) : Nat := c.main.rank + c.worker.rank

/-- The record the worker logs for a decoded envelope. -/
def receiveRecord (env : Env) (queue : Queue) (params : Params) : Event :=
  .info "mns_receive"
    (GetLogContext env queue "receiveMessage" ++
      [("messageBody", .content params.Content), ("tag", .str params.Tag),
       ("trace_id", .str params.TraceId)])

/-- The note the worker logs after the delete. -/
def deleteNote (env : Env) (queue : Queue) (receipt : String) : Event :=
  match env.queueDelete queue.inst receipt with
  | some err => .debug ["删除消息失败:", queue.Name, err]
  | none => .debug ["删除消息成功:", queue.Name]

/-- The cycle read as one sequential function: the place the worker ends in and
the whole trace. -/
def cycleOutcome (env : Env) (queue : Queue) (waitSeconds : Int) : WorkerPc × List Event :=
  let poll : Event := .receive queue.inst (pollSeconds waitSeconds)
  match env.queueReceive queue.inst (pollSeconds waitSeconds) with
  | .error err => (.sendEnd, [poll, .debug [err]])
  | .ok resp =>
    match env.unmarshal (env.DecodeBase64Str resp.MessageBody) with
    | .error err =>
      (.done, [poll, .debug ["消息结构异常:", queue.Name, err, resp.MessageBody]])
    | .ok params =>
      let record : Event :=
        .info "mns_receive"
          (GetLogContext env queue "receiveMessage" ++
            [("messageBody", .content params.Content), ("tag", .str params.Tag),
             ("trace_id", .str params.TraceId)])
      match queue.Handler with
      | none => (.panicked, [poll, record])
      | some handler =>
        match handler params with
        | some err =>
          (.done, [poll, record, .handler params (some err),
                   .debug ["处理消息失败:", queue.Name, err]])
        | none =>
          (.sendEnd, [poll, record, .handler params none,
                      .delete queue.inst resp.ReceiptHandle,
                      match env.queueDelete queue.inst resp.ReceiptHandle with
                      | some err => .debug ["删除消息失败:", queue.Name, err]
                      | none => .debug ["删除消息成功:", queue.Name]])

/-- The invariant of the cycle: the states before the hand-over of the poll's
result, the states in which the worker runs on from `cycleStart`, and the
state after the end signal. -/
def Inv (env : Env) (queue : Queue) (waitSeconds : Int) (c : Config) : Prop :=
  c = Config.init ∨
  c = ⟨.sending (env.queueReceive queue.inst (pollSeconds waitSeconds)), .select,
        [.receive queue.inst (pollSeconds waitSeconds)]⟩ ∨
  ((c.main = .sdkReturn ∨ c.main = .waitEnd) ∧
    ∃ k, workerRun env queue k (cycleStart env queue waitSeconds) = (c.worker, c.trace)) ∨
  (c.main = .returned ∧ c.worker = .done ∧
    ∃ k, workerRun env queue k (cycleStart env queue waitSeconds) = (.sendEnd, c.trace))

/-! ## A concrete environment

One instance of `Env` on which every definition can be evaluated: a line codec
for envelopes, a tagging encoder in the place of base64, and a transport with
three queues. -/

/-- The fields of a line: the text between the bars. -/
def sampleFields : List Char → List String
  | [] => [""]
  | c :: rest =>
    match sampleFields rest with
    | [] => [String.mk [c]]
    | field :: fields =>
      if c = '|' then "" :: field :: fields else String.mk (c :: field.data) :: fields

/-- The sample serialiser: the five fields on one line, a payload it cannot
serialise being an error. -/
def sampleMarshal (params : Params) : Except GoError String :=
  match params.Content with
  | .channel => .error "json: unsupported type: chan int"
  | .null =>
    .ok (String.intercalate "|"
      ["null", params.Tag, params.TraceId, params.ReferServiceName, params.Sign])
  | .text s =>
    .ok (String.intercalate "|"
      [String.mk ('"' :: s.data), params.Tag, params.TraceId, params.ReferServiceName,
       params.Sign])

/-- The sample parser, inverse to `sampleMarshal` on fields without a bar. -/
def sampleUnmarshal (bytes : String) : Except GoError Params :=
  match sampleFields bytes.data with
  | [content, tag, traceId, refer, sign] =>
    match content.data with
    | '"' :: s => .ok ⟨.text (String.mk s), tag, traceId, refer, sign⟩
    | ['n', 'u', 'l', 'l'] => .ok ⟨.null, tag, traceId, refer, sign⟩
    | _ => .error "invalid character looking for beginning of value"
  | _ => .error "unexpected end of JSON input"

/-- The sample decoder: the text after the mark `b64:`, empty without it. -/
def sampleDecode (body : String) : String :=
  match body.data with
  | 'b' :: '6' :: '4' :: ':' :: rest => String.mk rest
  | _ => ""

/-- The envelope the sample queue `orders` delivers. -/
def sampleParams : Params :=
  ⟨.text "hello", "urgent", "abc-123", "billing", "md5(abc-123secret-1)"⟩

/-- An envelope with nothing filled in but the payload and the tag. -/
def bareParams : Params := ⟨.text "hello", "urgent", "", "", ""⟩

/-- The sample environment. The SDK accepts a Url of five parts between dots,
as in `http://account.mns.region.aliyuncs.com`. The topic transport fails on the
filter tag `fail`; the queue `orders` delivers `sampleParams`, the queue `garbled` a body
that does not decode, every other queue ends its poll with an error. -/
def sampleEnv : Env where
  marshal := sampleMarshal
  unmarshal := sampleUnmarshal
  encodeBase64 := fun bytes => "b64:" ++ bytes
  DecodeBase64Str := sampleDecode
  GetMd5String := fun s => "md5(" ++ s ++ ")"
  UniqueId := "uid-1"
  systemName := "orders-service"
  GetTimeStr := "2019-08-01 12:00:00"
  GetTimeStampFloatStr := "1564660800.000"
  GetTraceId := "global-1"
  acceptsUrl := fun url => (url.data.filter fun c => c = '.').length = 4
  topicPublish := fun _ request =>
    if request.MessageTag = "fail" then .error "connection refused"
    else .ok ⟨"msg-1", "201"⟩
  queueReceive := fun queue _ =>
    if queue.name = "orders" then
      .ok ⟨"b64:\"hello|urgent|abc-123|billing|md5(abc-123secret-1)", "receipt-1"⟩
    else if queue.name = "garbled" then .ok ⟨"not base64", "receipt-2"⟩
    else .error "MessageNotExist"
  queueDelete := fun _ _ => none

/-- The connection of the sample client. -/
def sampleConn : MNSClient :=
  ⟨"http://1234.mns.cn-hangzhou.aliyuncs.com", "id-1", "secret-1"⟩

/-- A queue object bound to the sample connection. -/
def sampleQueue (name : String) (handler : Option QueueHandler) : Queue :=
  { Name := name, inst := ⟨name, some sampleConn⟩, Handler := handler,
    WaitSecond := 0 }

/-- A topic object bound to the sample connection. -/
def sampleTopic : Topic := { Name := "events", inst := ⟨"events", some sampleConn⟩ }

/-- The memory of a process that has not called `InitClient`. Unallocated
addresses hold zero-valued objects. -/
def World.start : World where
  client := none
  clients := fun _ => ⟨⟨"", "", ""⟩, none, none, none⟩
  nextClient := 0
  queues := fun _ => ⟨"", ⟨"", none⟩, none, 0⟩
  nextQueue := 0
  topics := fun _ => ⟨"", ⟨"", none⟩⟩
  nextTopic := 0
  goroutines := []

/-- The first configuration of the sample process. -/
def conf1 : Conf := ⟨"http://1234.mns.cn-hangzhou.aliyuncs.com", "id-1", "secret-1"⟩

/-- A second configuration, differing in every field. -/
def conf2 : Conf := ⟨"http://5678.mns.cn-shanghai.aliyuncs.com", "id-2", "secret-2"⟩

/-- A configuration without a Url, as read from an unset `MNS_ENDPOINT`. -/
def confNoUrl : Conf := ⟨"", "id-2", "secret-2"⟩

/-- The memory of the sample process after `InitClient(conf1)`. -/
def World.configured : World := (InitClient sampleEnv conf1 World.start).2

/-- The memory of the sample process with two registered queues: `orders` at
address 0, with a handler and a wait of 10 seconds, and `audit` at address 1,
without a handler. -/
def World.listening : World :=
  let w := (GetQueue 0 "audit" (GetQueue 0 "orders" World.configured).2).2
  let w := SetHandler 0 (some fun _ => none) w
  { w with queues := store w.queues 0 { w.queues 0 with WaitSecond := 10 } }

/-- The queue `orders` with a handler that accepts every message. -/
def acceptingQueue : Queue := sampleQueue "orders" (some fun _ => none)

/-- The queue `orders` with a handler that rejects every message. -/
def rejectingQueue : Queue := sampleQueue "orders" (some fun _ => some "boom")

/-- The queue `garbled`, whose message does not decode. -/
def garbledQueue : Queue := sampleQueue "garbled" (some fun _ => none)

/-- The queue `orders` without a handler. -/
def inertQueue : Queue := sampleQueue "orders" none

/-! ## Lemmas on the receive cycle -/

theorem workerRun_none (env : Env) (queue : Queue) (k : Nat) (s : WorkerPc × List Event)
    (h : workerLocal env queue s.1 = none) : workerRun env queue k s = s := by
  cases k with
  | zero => rfl
  | succ k => simp [workerRun, h]

theorem workerRun_some (env : Env) (queue : Queue) (k : Nat) (s : WorkerPc × List Event)
    (pc : WorkerPc) (events : List Event) (h : workerLocal env queue s.1 = some (pc, events)) :
    workerRun env queue (k + 1) s = workerRun env queue k (pc, s.2 ++ events) := by
  simp [workerRun, h]

theorem workerRun_succ (env : Env) (queue : Queue) (k : Nat) (s : WorkerPc × List Event) :
    workerRun env queue (k + 1) s =
      match workerLocal env queue (workerRun env queue k s).1 with
      | none => workerRun env queue k s
      | some (pc, events) => (pc, (workerRun env queue k s).2 ++ events) := by
  induction k generalizing s with
  | zero =>
    cases h : workerLocal env queue s.1 with
    | none => simp [workerRun, h]
    | some r => simp [workerRun, h]
  | succ k ih =>
    cases h : workerLocal env queue s.1 with
    | none =>
      rw [workerRun_none env queue _ s h, workerRun_none env queue _ s h, h]
    | some r =>
      obtain ⟨pc, events⟩ := r
      rw [workerRun_some env queue _ s pc events h, workerRun_some env queue _ s pc events h]
      exact ih _

theorem workerLocal_rank (env : Env) (queue : Queue) (pc pc1 : WorkerPc)
    (events : List Event) (h : workerLocal env queue pc = some (pc1, events)) :
    pc1.rank < pc.rank := by
  cases pc <;> simp only [workerLocal, DeleteMessage] at h
  · simp at h
  · split at h <;> simp at h <;> obtain ⟨rfl, _⟩ := h <;> simp [WorkerPc.rank]
  · split at h
    · simp at h; obtain ⟨rfl, _⟩ := h; simp [WorkerPc.rank]
    · split at h <;> simp at h <;> obtain ⟨rfl, _⟩ := h <;> simp [WorkerPc.rank]
  · split at h <;> simp at h <;> obtain ⟨rfl, _⟩ := h <;> simp [WorkerPc.rank]
  · simp at h; obtain ⟨rfl, _⟩ := h; simp [WorkerPc.rank]
  · simp at h
  · simp at h
  · simp at h

theorem workerRun_stuck (env : Env) (queue : Queue) (k : Nat) (s : WorkerPc × List Event)
    (h : workerLocal env queue (workerRun env queue k s).1 = none) (j : Nat) :
    workerRun env queue (k + j) s = workerRun env queue k s := by
  induction j with
  | zero => rfl
  | succ j ih =>
    rw [← Nat.add_assoc, workerRun_succ, ih, h]

theorem workerRun_mono (env : Env) (queue : Queue) (k j : Nat) (s : WorkerPc × List Event) :
    (workerRun env queue k s).2 <+: (workerRun env queue (k + j) s).2 := by
  induction j with
  | zero => exact List.prefix_refl _
  | succ j ih =>
    rw [← Nat.add_assoc, workerRun_succ]
    cases h : workerLocal env queue (workerRun env queue (k + j) s).1 with
    | none => simpa using ih
    | some r =>
      obtain ⟨pc, events⟩ := r
      exact ih.trans (List.prefix_append _ _)

theorem workerRun_rank (env : Env) (queue : Queue) (k : Nat) (s : WorkerPc × List Event) :
    (workerRun env queue k s).1.rank + k ≤ s.1.rank ∨
      workerLocal env queue (workerRun env queue k s).1 = none := by
  induction k with
  | zero => left; simp [workerRun]
  | succ k ih =>
    rw [workerRun_succ]
    cases h : workerLocal env queue (workerRun env queue k s).1 with
    | none => right; simpa using h
    | some r =>
      obtain ⟨pc, events⟩ := r
      have hlt := workerLocal_rank env queue _ pc events h
      rcases ih with ih | ih
      · left
        show pc.rank + (k + 1) ≤ s.1.rank
        omega
      · rw [h] at ih
        cases ih

theorem workerRun_rank_le (env : Env) (queue : Queue) (k : Nat) (s : WorkerPc × List Event) :
    (workerRun env queue k s).1.rank ≤ s.1.rank := by
  induction k with
  | zero => simp [workerRun]
  | succ k ih =>
    rw [workerRun_succ]
    cases h : workerLocal env queue (workerRun env queue k s).1 with
    | none => simpa using ih
    | some r =>
      obtain ⟨pc, events⟩ := r
      have hlt := workerLocal_rank env queue _ pc events h
      show pc.rank ≤ s.1.rank
      omega

theorem workerLocal_rank_zero (env : Env) (queue : Queue) (pc : WorkerPc)
    (h : pc.rank = 0) : workerLocal env queue pc = none := by
  cases pc <;> simp [WorkerPc.rank] at h <;> rfl

theorem cycleStart_rank (env : Env) (queue : Queue) (waitSeconds : Int) :
    (cycleStart env queue waitSeconds).1.rank ≤ 3 := by
  unfold cycleStart
  cases env.queueReceive queue.inst (pollSeconds waitSeconds) <;>
    simp [WorkerPc.received, WorkerPc.rank]

theorem cycleEnd_stuck (env : Env) (queue : Queue) (waitSeconds : Int) :
    workerLocal env queue (cycleEnd env queue waitSeconds).1 = none := by
  rcases workerRun_rank env queue 3 (cycleStart env queue waitSeconds) with h | h
  · have := cycleStart_rank env queue waitSeconds
    exact workerLocal_rank_zero env queue _ (by unfold cycleEnd; omega)
  · exact h

/-- Every state of the worker's run is on the way to `cycleEnd`, and a state in
which the worker cannot move on its own is `cycleEnd`. -/
theorem workerRun_cycle (env : Env) (queue : Queue) (waitSeconds : Int) (k : Nat) :
    (workerRun env queue k (cycleStart env queue waitSeconds)).2 <+:
        (cycleEnd env queue waitSeconds).2 ∧
      (workerLocal env queue (workerRun env queue k (cycleStart env queue waitSeconds)).1 = none →
        workerRun env queue k (cycleStart env queue waitSeconds) =
          cycleEnd env queue waitSeconds) := by
  rcases Nat.le_total k 3 with hk | hk
  · obtain ⟨j, hj⟩ := Nat.exists_eq_add_of_le hk
    unfold cycleEnd
    rw [hj]
    refine ⟨workerRun_mono env queue k j _, fun h => ?_⟩
    exact (workerRun_stuck env queue k _ h j).symm
  · obtain ⟨j, rfl⟩ := Nat.exists_eq_add_of_le hk
    have h3 := workerRun_stuck env queue 3 _ (cycleEnd_stuck env queue waitSeconds) j
    rw [h3]
    exact ⟨List.prefix_refl _, fun _ => rfl⟩

theorem workerRun_extends (env : Env) (queue : Queue) (k : Nat)
    (s : WorkerPc × List Event) : s.2 <+: (workerRun env queue k s).2 := by
  simpa [workerRun] using workerRun_mono env queue 0 k s

theorem Inv_step (env : Env) (queue : Queue) (waitSeconds : Int) (c c1 : Config)
    (hinv : Inv env queue waitSeconds c) (hstep : Step env queue waitSeconds c c1) :
    Inv env queue waitSeconds c1 := by
  rcases hinv with rfl | rfl | ⟨hm, k, hk⟩ | ⟨hm, hw, k, hk⟩
  · cases hstep with
    | main h =>
      simp [mainStep, Config.init, Config.crashed] at h
      subst h
      right; left; rfl
    | worker h => simp [workerStep, workerLocal, Config.init] at h
    | sync h => simp [syncStep, Config.init] at h
  · cases hstep with
    | main h => simp [mainStep, Config.crashed] at h
    | worker h => simp [workerStep, workerLocal] at h
    | sync h =>
      right; right; left
      cases hr : env.queueReceive queue.inst (pollSeconds waitSeconds) with
      | error err =>
        simp [syncStep, hr] at h
        subst h
        exact ⟨Or.inl rfl, 0, by simp [workerRun, cycleStart, hr, WorkerPc.received]⟩
      | ok resp =>
        simp [syncStep, hr] at h
        subst h
        exact ⟨Or.inl rfl, 0, by simp [workerRun, cycleStart, hr, WorkerPc.received]⟩
  · cases hstep with
    | main h =>
      obtain ⟨m, w, t⟩ := c
      simp only at hm hk
      rcases hm with rfl | rfl
      · simp only [mainStep] at h
        split at h
        · cases h
        · simp at h
          subst h
          exact Or.inr (Or.inr (Or.inl ⟨Or.inr rfl, k, hk⟩))
      · simp only [mainStep] at h
        split at h <;> simp at h
    | worker h =>
      obtain ⟨m, w, t⟩ := c
      simp only at hm hk
      simp only [workerStep] at h
      cases hl : workerLocal env queue w with
      | none => simp [hl] at h
      | some r =>
        obtain ⟨pc, events⟩ := r
        simp [hl] at h
        subst h
        refine Or.inr (Or.inr (Or.inl ⟨hm, k + 1, ?_⟩))
        rw [workerRun_succ, hk]
        simp [hl]
    | sync h =>
      obtain ⟨m, w, t⟩ := c
      simp only at hm hk
      rcases hm with rfl | rfl
      · simp [syncStep] at h
      · cases w <;> simp [syncStep] at h
        subst h
        exact Or.inr (Or.inr (Or.inr ⟨rfl, rfl, k, hk⟩))
  · cases hstep with
    | main h =>
      obtain ⟨m, w, t⟩ := c
      simp only at hm hw
      subst hm hw
      simp [mainStep, Config.crashed] at h
    | worker h =>
      obtain ⟨m, w, t⟩ := c
      simp only at hm hw
      subst hm hw
      simp [workerStep, workerLocal] at h
    | sync h =>
      obtain ⟨m, w, t⟩ := c
      simp only at hm hw
      subst hm hw
      simp [syncStep] at h

theorem Reachable_Inv (env : Env) (queue : Queue) (waitSeconds : Int) (c : Config)
    (h : Reachable env queue waitSeconds c) : Inv env queue waitSeconds c := by
  induction h with
  | refl => exact Or.inl rfl
  | tail _ hstep ih => exact Inv_step env queue waitSeconds _ _ ih hstep

theorem cycleEnd_eq_outcome (env : Env) (queue : Queue) (waitSeconds : Int) :
    cycleEnd env queue waitSeconds = cycleOutcome env queue waitSeconds := by
  unfold cycleEnd cycleStart cycleOutcome
  cases hr : env.queueReceive queue.inst (pollSeconds waitSeconds) with
  | error err => simp [WorkerPc.received, workerRun, workerLocal]
  | ok resp =>
    cases hd : env.unmarshal (env.DecodeBase64Str resp.MessageBody) with
    | error err => simp [WorkerPc.received, workerRun, workerLocal, hd]
    | ok params =>
      cases hh : queue.Handler with
      | none => simp [WorkerPc.received, workerRun, workerLocal, hd, hh]
      | some handler =>
        cases hp : handler params with
        | some err => simp [WorkerPc.received, workerRun, workerLocal, hd, hh, hp]
        | none =>
          cases hx : env.queueDelete queue.inst resp.ReceiptHandle <;>
            simp [WorkerPc.received, workerRun, workerLocal, hd, hh, hp, hx, DeleteMessage]

theorem Reachable_trace_initial (env : Env) (queue : Queue) (waitSeconds : Int) (c : Config)
    (h : Reachable env queue waitSeconds c) :
    c.trace <+: (cycleOutcome env queue waitSeconds).2 := by
  rw [← cycleEnd_eq_outcome]
  rcases Reachable_Inv env queue waitSeconds c h with rfl | rfl | ⟨_, k, hk⟩ | ⟨_, _, k, hk⟩
  · exact List.nil_prefix
  · exact workerRun_extends env queue 3 (cycleStart env queue waitSeconds)
  · have := (workerRun_cycle env queue waitSeconds k).1
    rwa [hk] at this
  · have := (workerRun_cycle env queue waitSeconds k).1
    rwa [hk] at this

theorem Reachable_polled (env : Env) (queue : Queue) (waitSeconds : Int) (c : Config)
    (h : Reachable env queue waitSeconds c) :
    c = Config.init ∨
      [Event.receive queue.inst (pollSeconds waitSeconds)] <+: c.trace := by
  rcases Reachable_Inv env queue waitSeconds c h with rfl | rfl | ⟨_, k, hk⟩ | ⟨_, _, k, hk⟩
  · exact Or.inl rfl
  · exact Or.inr (List.prefix_refl _)
  · have := workerRun_extends env queue k (cycleStart env queue waitSeconds)
    rw [hk] at this
    exact Or.inr this
  · have := workerRun_extends env queue k (cycleStart env queue waitSeconds)
    rw [hk] at this
    exact Or.inr this

theorem Terminal_steps (env : Env) (queue : Queue) (waitSeconds : Int) (c : Config)
    (hterm : Terminal env queue waitSeconds c) :
    mainStep env queue waitSeconds c = none ∧ workerStep env queue c = none ∧
      syncStep c = none := by
  refine ⟨?_, ?_, ?_⟩
  · cases hm : mainStep env queue waitSeconds c with
    | none => rfl
    | some c1 => exact absurd (Step.main hm) (hterm c1)
  · cases hm : workerStep env queue c with
    | none => rfl
    | some c1 => exact absurd (Step.worker hm) (hterm c1)
  · cases hm : syncStep c with
    | none => rfl
    | some c1 => exact absurd (Step.sync hm) (hterm c1)

theorem Terminal_of_steps (env : Env) (queue : Queue) (waitSeconds : Int) (c : Config)
    (hm : mainStep env queue waitSeconds c = none) (hw : workerStep env queue c = none)
    (hs : syncStep c = none) : Terminal env queue waitSeconds c := by
  intro c1 hstep
  cases hstep with
  | main h => rw [hm] at h; cases h
  | worker h => rw [hw] at h; cases h
  | sync h => rw [hs] at h; cases h

/-- A state with no step left is the end of the cycle read as one function: the
caller has returned exactly when the worker got to its end signal, it is blocked
on the end signal when the worker ended without one, and the process is dead
when the worker panicked. -/
theorem Reachable_terminal (env : Env) (queue : Queue) (waitSeconds : Int) (c : Config)
    (h : Reachable env queue waitSeconds c) (hterm : Terminal env queue waitSeconds c) :
    c.trace = (cycleOutcome env queue waitSeconds).2 ∧
      (((cycleOutcome env queue waitSeconds).1 = .sendEnd ∧ c.main = .returned ∧
          c.worker = .done) ∨
       ((cycleOutcome env queue waitSeconds).1 = .done ∧ c.main = .waitEnd ∧
          c.worker = .done) ∨
       ((cycleOutcome env queue waitSeconds).1 = .panicked ∧ c.worker = .panicked ∧
          (c.main = .sdkReturn ∨ c.main = .waitEnd))) := by
  rw [← cycleEnd_eq_outcome]
  obtain ⟨hM, hW, hS⟩ := Terminal_steps env queue waitSeconds c hterm
  rcases Reachable_Inv env queue waitSeconds c h with rfl | rfl | ⟨hm, k, hk⟩ | ⟨hm, hw, k, hk⟩
  · simp [mainStep, Config.init, Config.crashed] at hM
  · cases hr : env.queueReceive queue.inst (pollSeconds waitSeconds) with
    | error err => simp [syncStep, hr] at hS
    | ok resp => simp [syncStep, hr] at hS
  · obtain ⟨m, w, t⟩ := c
    simp only at hm hk ⊢
    have hstuck : workerLocal env queue w = none := by
      cases hl : workerLocal env queue w with
      | none => rfl
      | some r =>
        obtain ⟨pc, events⟩ := r
        simp [workerStep, hl] at hW
    have hend := (workerRun_cycle env queue waitSeconds k).2 (by rw [hk]; exact hstuck)
    rw [hk] at hend
    rw [← hend]
    refine ⟨rfl, ?_⟩
    have hrank := workerRun_rank_le env queue k (cycleStart env queue waitSeconds)
    have hstart := cycleStart_rank env queue waitSeconds
    rw [hk] at hrank
    simp only at hrank
    cases w with
    | select =>
      have h4 : WorkerPc.select.rank = 4 := rfl
      omega
    | gotResp resp => simp [workerLocal] at hstuck; split at hstuck <;> simp at hstuck
    | dispatch resp params =>
      simp only [workerLocal] at hstuck
      split at hstuck
      · simp at hstuck
      · split at hstuck <;> simp at hstuck
    | acknowledge resp =>
      simp only [workerLocal, DeleteMessage] at hstuck
      split at hstuck <;> simp at hstuck
    | gotErr err => simp [workerLocal] at hstuck
    | sendEnd =>
      rcases hm with rfl | rfl
      · simp [mainStep, Config.crashed] at hM
      · simp [syncStep] at hS
    | done =>
      rcases hm with rfl | rfl
      · simp [mainStep, Config.crashed] at hM
      · exact Or.inr (Or.inl ⟨rfl, rfl, rfl⟩)
    | panicked => exact Or.inr (Or.inr ⟨rfl, rfl, hm⟩)
  · obtain ⟨m, w, t⟩ := c
    simp only at hm hw hk ⊢
    subst hm hw
    have hend := (workerRun_cycle env queue waitSeconds k).2 (by rw [hk]; rfl)
    rw [hk] at hend
    rw [← hend]
    exact ⟨rfl, Or.inl ⟨rfl, rfl, rfl⟩⟩

/-- The caller returns only when the worker got to its end signal. -/
theorem Reachable_returned (env : Env) (queue : Queue) (waitSeconds : Int) (c : Config)
    (h : Reachable env queue waitSeconds c) (hret : c.main = .returned) :
    (cycleOutcome env queue waitSeconds).1 = .sendEnd := by
  rw [← cycleEnd_eq_outcome]
  rcases Reachable_Inv env queue waitSeconds c h with rfl | rfl | ⟨hm, _⟩ | ⟨_, _, k, hk⟩
  · simp [Config.init] at hret
  · simp at hret
  · rw [hret] at hm
    simp at hm
  · have hend := (workerRun_cycle env queue waitSeconds k).2 (by rw [hk]; rfl)
    rw [hk] at hend
    rw [← hend]

theorem Step_rank (env : Env) (queue : Queue) (waitSeconds : Int) (c c1 : Config)
    (hstep : Step env queue waitSeconds c c1) : c1.rank < c.rank := by
  obtain ⟨m, w, t⟩ := c
  cases hstep with
  | main h =>
    simp only [mainStep] at h
    split at h
    · cases h
    · cases m <;> simp at h <;> subst h <;> simp [Config.rank, MainPc.rank]
  | worker h =>
    simp only [workerStep] at h
    cases hl : workerLocal env queue w with
    | none => simp [hl] at h
    | some r =>
      obtain ⟨pc, events⟩ := r
      simp [hl] at h
      subst h
      have := workerLocal_rank env queue w pc events hl
      simp only [Config.rank]
      omega
  | sync h =>
    cases m with
    | sending r =>
      cases r <;> cases w <;> simp [syncStep] at h <;> subst h <;>
        simp [Config.rank, MainPc.rank, WorkerPc.rank]
    | waitEnd =>
      cases w <;> simp [syncStep] at h
      subst h
      simp [Config.rank, MainPc.rank, WorkerPc.rank]
    | callReceive => simp [syncStep] at h
    | sdkReturn => simp [syncStep] at h
    | returned => simp [syncStep] at h

theorem schedule_step (env : Env) (queue : Queue) (waitSeconds : Int) (c c1 : Config)
    (h : schedule env queue waitSeconds c = some c1) : Step env queue waitSeconds c c1 := by
  unfold schedule at h
  cases hw : workerStep env queue c with
  | some c2 =>
    rw [hw] at h
    simp at h
    subst h
    exact Step.worker hw
  | none =>
    rw [hw] at h
    cases hs : syncStep c with
    | some c2 =>
      rw [hs] at h
      simp at h
      subst h
      exact Step.sync hs
    | none =>
      rw [hs] at h
      exact Step.main h

theorem schedule_none (env : Env) (queue : Queue) (waitSeconds : Int) (c : Config)
    (h : schedule env queue waitSeconds c = none) : Terminal env queue waitSeconds c := by
  unfold schedule at h
  cases hw : workerStep env queue c with
  | some c2 => rw [hw] at h; cases h
  | none =>
    rw [hw] at h
    cases hs : syncStep c with
    | some c2 => rw [hs] at h; cases h
    | none =>
      rw [hs] at h
      exact Terminal_of_steps env queue waitSeconds c h hw hs

theorem run_steps (env : Env) (queue : Queue) (waitSeconds : Int) (n : Nat) (c : Config) :
    Relation.ReflTransGen (Step env queue waitSeconds) c (run env queue waitSeconds n c) := by
  induction n generalizing c with
  | zero => exact Relation.ReflTransGen.refl
  | succ n ih =>
    unfold run
    cases hs : schedule env queue waitSeconds c with
    | none => exact Relation.ReflTransGen.refl
    | some c1 =>
      exact Relation.ReflTransGen.head (schedule_step env queue waitSeconds c c1 hs) (ih c1)

theorem run_terminal (env : Env) (queue : Queue) (waitSeconds : Int) (n : Nat) (c : Config)
    (hn : c.rank ≤ n) : Terminal env queue waitSeconds (run env queue waitSeconds n c) := by
  induction n generalizing c with
  | zero =>
    intro c1 hstep
    have := Step_rank env queue waitSeconds _ c1 hstep
    simp only [run] at this
    omega
  | succ n ih =>
    unfold run
    cases hs : schedule env queue waitSeconds c with
    | none => exact schedule_none env queue waitSeconds c hs
    | some c1 =>
      have := Step_rank env queue waitSeconds c c1 (schedule_step env queue waitSeconds c c1 hs)
      exact ih c1 (by omega)

theorem ReceiveMessage_reachable (env : Env) (queue : Queue) (waitSeconds : Int) :
    Reachable env queue waitSeconds (ReceiveMessage env queue waitSeconds) :=
  run_steps env queue waitSeconds 8 Config.init

theorem ReceiveMessage_terminal (env : Env) (queue : Queue) (waitSeconds : Int) :
    Terminal env queue waitSeconds (ReceiveMessage env queue waitSeconds) :=
  run_terminal env queue waitSeconds 8 Config.init (by decide)

/-- No execution of the cycle goes on for ever. -/
theorem no_endless_execution (env : Env) (queue : Queue) (waitSeconds : Int)
    (f : Nat → Config) (hf : ∀ n, Step env queue waitSeconds (f n) (f (n + 1))) : False := by
  have hbound : ∀ n, (f n).rank + n ≤ (f 0).rank := by
    intro n
    induction n with
    | zero => simp
    | succ n ih =>
      have := Step_rank env queue waitSeconds _ _ (hf n)
      omega
  have := hbound ((f 0).rank + 1)
  omega

theorem deleteCalls_append (a b : List Event) :
    deleteCalls (a ++ b) = deleteCalls a ++ deleteCalls b := by
  induction a with
  | nil => rfl
  | cons e rest ih => cases e <;> simp [deleteCalls, ih]

theorem deleteCalls_nil_of_initial (a b : List Event) (h : a <+: b) (hb : deleteCalls b = []) :
    deleteCalls a = [] := by
  obtain ⟨t, rfl⟩ := h
  rw [deleteCalls_append] at hb
  exact (List.append_eq_nil.mp hb).1

theorem prefix_five {α : Type} (l : List α) (a b c d e : α) (h : l <+: [a, b, c, d, e]) :
    l = [] ∨ l = [a] ∨ l = [a, b] ∨ l = [a, b, c] ∨ l = [a, b, c, d] ∨
      l = [a, b, c, d, e] := by
  obtain ⟨t, ht⟩ := h
  rcases l with _ | ⟨x1, _ | ⟨x2, _ | ⟨x3, _ | ⟨x4, _ | ⟨x5, _ | ⟨x6, rest⟩⟩⟩⟩⟩⟩ <;>
    simp at ht <;> simp [ht]

theorem cycleOutcome_receiveError (env : Env) (queue : Queue) (waitSeconds : Int)
    (err : GoError)
    (hr : env.queueReceive queue.inst (pollSeconds waitSeconds) = .error err) :
    cycleOutcome env queue waitSeconds =
      (.sendEnd, [.receive queue.inst (pollSeconds waitSeconds), .debug [err]]) := by
  simp [cycleOutcome, hr]

theorem cycleOutcome_decodeError (env : Env) (queue : Queue) (waitSeconds : Int)
    (resp : MessageReceiveResponse) (err : GoError)
    (hr : env.queueReceive queue.inst (pollSeconds waitSeconds) = .ok resp)
    (hd : env.unmarshal (env.DecodeBase64Str resp.MessageBody) = .error err) :
    cycleOutcome env queue waitSeconds =
      (.done, [.receive queue.inst (pollSeconds waitSeconds),
               .debug ["消息结构异常:", queue.Name, err, resp.MessageBody]]) := by
  simp [cycleOutcome, hr, hd]

theorem cycleOutcome_nilHandler (env : Env) (queue : Queue) (waitSeconds : Int)
    (resp : MessageReceiveResponse) (params : Params)
    (hr : env.queueReceive queue.inst (pollSeconds waitSeconds) = .ok resp)
    (hd : env.unmarshal (env.DecodeBase64Str resp.MessageBody) = .ok params)
    (hh : queue.Handler = none) :
    cycleOutcome env queue waitSeconds =
      (.panicked, [.receive queue.inst (pollSeconds waitSeconds),
                   receiveRecord env queue params]) := by
  simp [cycleOutcome, hr, hd, hh, receiveRecord]

theorem cycleOutcome_handlerError (env : Env) (queue : Queue) (waitSeconds : Int)
    (resp : MessageReceiveResponse) (params : Params) (handler : QueueHandler) (err : GoError)
    (hr : env.queueReceive queue.inst (pollSeconds waitSeconds) = .ok resp)
    (hd : env.unmarshal (env.DecodeBase64Str resp.MessageBody) = .ok params)
    (hh : queue.Handler = some handler) (hp : handler params = some err) :
    cycleOutcome env queue waitSeconds =
      (.done, [.receive queue.inst (pollSeconds waitSeconds), receiveRecord env queue params,
               .handler params (some err), .debug ["处理消息失败:", queue.Name, err]]) := by
  simp [cycleOutcome, hr, hd, hh, hp, receiveRecord]

theorem cycleOutcome_acknowledged (env : Env) (queue : Queue) (waitSeconds : Int)
    (resp : MessageReceiveResponse) (params : Params) (handler : QueueHandler)
    (hr : env.queueReceive queue.inst (pollSeconds waitSeconds) = .ok resp)
    (hd : env.unmarshal (env.DecodeBase64Str resp.MessageBody) = .ok params)
    (hh : queue.Handler = some handler) (hp : handler params = none) :
    cycleOutcome env queue waitSeconds =
      (.sendEnd, [.receive queue.inst (pollSeconds waitSeconds), receiveRecord env queue params,
                  .handler params none, .delete queue.inst resp.ReceiptHandle,
                  deleteNote env queue resp.ReceiptHandle]) := by
  simp [cycleOutcome, hr, hd, hh, hp, receiveRecord, deleteNote]

theorem deleteCalls_deleteNote (env : Env) (queue : Queue) (receipt : String) :
    deleteCalls [deleteNote env queue receipt] = [] := by
  unfold deleteNote
  cases env.queueDelete queue.inst receipt <;> rfl

/-- The end of a cycle, case by case: either it does not acknowledge and its
trace holds no delete, or it acknowledges and its trace is the poll, the record,
the handler's return, the delete and a note. -/
theorem cycleOutcome_delete (env : Env) (queue : Queue) (waitSeconds : Int) :
    ((¬ ∃ receipt, Acknowledges env queue waitSeconds receipt) ∧
        deleteCalls (cycleOutcome env queue waitSeconds).2 = []) ∨
      (∃ receipt params,
        Acknowledges env queue waitSeconds receipt ∧
        (∀ other, Acknowledges env queue waitSeconds other → other = receipt) ∧
        cycleOutcome env queue waitSeconds =
          (.sendEnd, [.receive queue.inst (pollSeconds waitSeconds),
            receiveRecord env queue params, .handler params none,
            .delete queue.inst receipt, deleteNote env queue receipt])) := by
  cases hr : env.queueReceive queue.inst (pollSeconds waitSeconds) with
  | error err =>
    left
    rw [cycleOutcome_receiveError env queue waitSeconds err hr]
    refine ⟨?_, by simp [deleteCalls]⟩
    rintro ⟨receipt, resp, params, handler, h1, _⟩
    rw [hr] at h1
    cases h1
  | ok resp =>
    cases hd : env.unmarshal (env.DecodeBase64Str resp.MessageBody) with
    | error err =>
      left
      rw [cycleOutcome_decodeError env queue waitSeconds resp err hr hd]
      refine ⟨?_, by simp [deleteCalls]⟩
      rintro ⟨receipt, resp1, params, handler, h1, h2, _⟩
      rw [hr] at h1
      cases h1
      rw [hd] at h2
      cases h2
    | ok params =>
      cases hh : queue.Handler with
      | none =>
        left
        rw [cycleOutcome_nilHandler env queue waitSeconds resp params hr hd hh]
        refine ⟨?_, by simp [deleteCalls, receiveRecord]⟩
        rintro ⟨receipt, resp1, params1, handler, _, _, h3, _⟩
        rw [hh] at h3
        cases h3
      | some handler =>
        cases hp : handler params with
        | some err =>
          left
          rw [cycleOutcome_handlerError env queue waitSeconds resp params handler err hr hd hh hp]
          refine ⟨?_, by simp [deleteCalls, receiveRecord]⟩
          rintro ⟨receipt, resp1, params1, handler1, h1, h2, h3, h4, _⟩
          rw [hr] at h1
          cases h1
          rw [hd] at h2
          cases h2
          rw [hh] at h3
          cases h3
          rw [hp] at h4
          cases h4
        | none =>
          right
          refine ⟨resp.ReceiptHandle, params, ⟨resp, params, handler, hr, hd, hh, hp, rfl⟩, ?_,
            cycleOutcome_acknowledged env queue waitSeconds resp params handler hr hd hh hp⟩
          rintro other ⟨resp1, params1, handler1, h1, _, _, _, h5⟩
          rw [hr] at h1
          cases h1
          exact h5.symm

/-- C2. In one cycle of `Queue.ReceiveMessage`, in every interleaving of the two
goroutines: `DeleteMessage` is invoked at most once, and when it is invoked the
cycle acknowledges (a message arrived, its body decoded, the handler returned
nil), the receipt handle is the one of the received message and the handler's
return comes before the delete in the trace; after a receive error, a body that
does not decode, or a handler error, it is never invoked; in a cycle that has
run out of steps it was invoked exactly once if and only if the cycle
acknowledges; and every execution runs out of steps. -/
theorem ReceiveMessage_deletes_iff_acknowledged (env : Env) (queue : Queue)
    (waitSeconds : Int) (c : Config) (hc : Reachable env queue waitSeconds c) :
    (deleteCalls c.trace = [] ∨
      ∃ receipt params before after,
        Acknowledges env queue waitSeconds receipt ∧
        deleteCalls c.trace = [receipt] ∧
        c.trace = before ++ Event.delete queue.inst receipt :: after ∧
        Event.handler params none ∈ before ∧
        deleteCalls before = [] ∧ deleteCalls after = []) ∧
    (∀ err, env.queueReceive queue.inst (pollSeconds waitSeconds) = .error err →
      deleteCalls c.trace = []) ∧
    (∀ resp err, env.queueReceive queue.inst (pollSeconds waitSeconds) = .ok resp →
      env.unmarshal (env.DecodeBase64Str resp.MessageBody) = .error err →
      deleteCalls c.trace = []) ∧
    (∀ resp params handler err,
      env.queueReceive queue.inst (pollSeconds waitSeconds) = .ok resp →
      env.unmarshal (env.DecodeBase64Str resp.MessageBody) = .ok params →
      queue.Handler = some handler → handler params = some err →
      deleteCalls c.trace = []) ∧
    (Terminal env queue waitSeconds c →
      ∀ receipt, deleteCalls c.trace = [receipt] ↔ Acknowledges env queue waitSeconds receipt) ∧
    (∃ c1, Reachable env queue waitSeconds c1 ∧ Terminal env queue waitSeconds c1) ∧
    (∀ f : Nat → Config, ¬ ∀ n, Step env queue waitSeconds (f n) (f (n + 1))) := by
  have hpre := Reachable_trace_initial env queue waitSeconds c hc
  have hnone : (¬ ∃ receipt, Acknowledges env queue waitSeconds receipt) →
      deleteCalls c.trace = [] := by
    intro hno
    rcases cycleOutcome_delete env queue waitSeconds with ⟨_, h0⟩ | ⟨receipt, _, hack, _⟩
    · exact deleteCalls_nil_of_initial _ _ hpre h0
    · exact absurd ⟨receipt, hack⟩ hno
  refine ⟨?_, ?_, ?_, ?_, ?_, ?_, ?_⟩
  · have hnote := fun r => deleteCalls_deleteNote env queue r
    rcases cycleOutcome_delete env queue waitSeconds with
      ⟨_, h0⟩ | ⟨receipt, params, hack, _, hout⟩
    · exact Or.inl (deleteCalls_nil_of_initial _ _ hpre h0)
    · rw [hout] at hpre
      rcases prefix_five _ _ _ _ _ _ hpre with h | h | h | h | h | h
      · left; rw [h]; rfl
      · left; rw [h]; rfl
      · left; rw [h]; rfl
      · left; rw [h]; rfl
      · right
        refine ⟨receipt, params, [.receive queue.inst (pollSeconds waitSeconds),
          receiveRecord env queue params, .handler params none], [], hack, ?_, ?_, ?_, rfl, rfl⟩
        · rw [h]; rfl
        · rw [h]; rfl
        · simp
      · right
        refine ⟨receipt, params, [.receive queue.inst (pollSeconds waitSeconds),
          receiveRecord env queue params, .handler params none],
          [deleteNote env queue receipt], hack, ?_, ?_, ?_, rfl, hnote receipt⟩
        · rw [h]
          show receipt :: deleteCalls [deleteNote env queue receipt] = [receipt]
          rw [hnote]
        · rw [h]; rfl
        · simp
  · intro err hr
    apply hnone
    rintro ⟨receipt, resp, params, handler, h1, _⟩
    rw [hr] at h1
    cases h1
  · intro resp err hr hd
    apply hnone
    rintro ⟨receipt, resp1, params, handler, h1, h2, _⟩
    rw [hr] at h1
    cases h1
    rw [hd] at h2
    cases h2
  · intro resp params handler err hr hd hh hp
    apply hnone
    rintro ⟨receipt, resp1, params1, handler1, h1, h2, h3, h4, _⟩
    rw [hr] at h1
    cases h1
    rw [hd] at h2
    cases h2
    rw [hh] at h3
    cases h3
    rw [hp] at h4
    cases h4
  · intro hterm receipt
    have htr := (Reachable_terminal env queue waitSeconds c hc hterm).1
    rcases cycleOutcome_delete env queue waitSeconds with
      ⟨hno, h0⟩ | ⟨receipt1, params, hack, huniq, hout⟩
    · rw [htr, h0]
      constructor
      · intro h; cases h
      · intro h; exact absurd ⟨receipt, h⟩ hno
    · have hdel : deleteCalls c.trace = [receipt1] := by
        rw [htr, hout]
        show receipt1 :: deleteCalls [deleteNote env queue receipt1] = [receipt1]
        rw [deleteCalls_deleteNote]
      rw [hdel]
      constructor
      · intro h
        cases h
        exact hack
      · intro h
        rw [huniq receipt h]
  · exact ⟨_, ReceiveMessage_reachable env queue waitSeconds,
      ReceiveMessage_terminal env queue waitSeconds⟩
  · intro f hf
    exact no_endless_execution env queue waitSeconds f hf

/-- The cycle of C2 on the sample queue `orders` with an accepting handler: the
one delete carries the receipt handle of the delivered message. -/
theorem ReceiveMessage_deletes_iff_acknowledged_witness :
    Reachable sampleEnv acceptingQueue 0 (ReceiveMessage sampleEnv acceptingQueue 0) ∧
      deleteCalls (ReceiveMessage sampleEnv acceptingQueue 0).trace = ["receipt-1"] ∧
      Acknowledges sampleEnv acceptingQueue 0 "receipt-1" :=
  ⟨ReceiveMessage_reachable sampleEnv acceptingQueue 0, by decide,
    ((ReceiveMessage_deletes_iff_acknowledged sampleEnv acceptingQueue 0 _
      (ReceiveMessage_reachable sampleEnv acceptingQueue 0)).2.2.2.2.1
      (ReceiveMessage_terminal sampleEnv acceptingQueue 0) "receipt-1").mp (by decide)⟩

/-- C3. When `Queue.ReceiveMessage` returns. In a cycle that has run out of
steps the caller has returned if and only if the receive ended with an error or
the cycle acknowledged (handler nil; the delete succeeding or failing). After a
body that does not decode, and after a handler error, the worker ends without
the end signal: the caller never returns, and the cycle ends with the caller
blocked on the end channel. -/
theorem ReceiveMessage_returns_iff (env : Env) (queue : Queue) (waitSeconds : Int)
    (c : Config) (hc : Reachable env queue waitSeconds c) :
    (Terminal env queue waitSeconds c →
      (c.main = .returned ↔
        (∃ err, env.queueReceive queue.inst (pollSeconds waitSeconds) = .error err) ∨
        ∃ receipt, Acknowledges env queue waitSeconds receipt)) ∧
    (∀ resp err, env.queueReceive queue.inst (pollSeconds waitSeconds) = .ok resp →
      env.unmarshal (env.DecodeBase64Str resp.MessageBody) = .error err →
      c.main ≠ .returned ∧
        (Terminal env queue waitSeconds c → c.main = .waitEnd ∧ c.worker = .done)) ∧
    (∀ resp params handler err,
      env.queueReceive queue.inst (pollSeconds waitSeconds) = .ok resp →
      env.unmarshal (env.DecodeBase64Str resp.MessageBody) = .ok params →
      queue.Handler = some handler → handler params = some err →
      c.main ≠ .returned ∧
        (Terminal env queue waitSeconds c → c.main = .waitEnd ∧ c.worker = .done)) := by
  have hblocked : (cycleOutcome env queue waitSeconds).1 = .done →
      c.main ≠ .returned ∧
        (Terminal env queue waitSeconds c → c.main = .waitEnd ∧ c.worker = .done) := by
    intro hdone
    refine ⟨fun hret => ?_, fun hterm => ?_⟩
    · have := Reachable_returned env queue waitSeconds c hc hret
      rw [hdone] at this
      cases this
    · rcases (Reachable_terminal env queue waitSeconds c hc hterm).2 with
        ⟨h1, _⟩ | ⟨_, h2, h3⟩ | ⟨h1, _⟩
      · rw [hdone] at h1; cases h1
      · exact ⟨h2, h3⟩
      · rw [hdone] at h1; cases h1
  refine ⟨fun hterm => ?_, ?_, ?_⟩
  · have hend := (Reachable_terminal env queue waitSeconds c hc hterm).2
    cases hr : env.queueReceive queue.inst (pollSeconds waitSeconds) with
    | error err =>
      rw [cycleOutcome_receiveError env queue waitSeconds err hr] at hend
      simp at hend
      simp [hend.1]
    | ok resp =>
      cases hd : env.unmarshal (env.DecodeBase64Str resp.MessageBody) with
      | error err =>
        rw [cycleOutcome_decodeError env queue waitSeconds resp err hr hd] at hend
        simp at hend
        simp only [hend.1, false_iff, reduceCtorEq]
        rintro (⟨e, he⟩ | ⟨receipt, resp1, params, handler, h1, h2, _⟩)
        · simp at he
        · rw [hr] at h1
          cases h1
          rw [hd] at h2
          cases h2
      | ok params =>
        cases hh : queue.Handler with
        | none =>
          rw [cycleOutcome_nilHandler env queue waitSeconds resp params hr hd hh] at hend
          simp at hend
          have hne : c.main ≠ .returned := by
            rcases hend.2 with h | h <;> rw [h] <;> simp
          simp only [hne, false_iff]
          rintro (⟨e, he⟩ | ⟨receipt, resp1, params1, handler, _, _, h3, _⟩)
          · simp at he
          · rw [hh] at h3
            cases h3
        | some handler =>
          cases hp : handler params with
          | some err =>
            rw [cycleOutcome_handlerError env queue waitSeconds resp params handler err
              hr hd hh hp] at hend
            simp at hend
            simp only [hend.1, false_iff, reduceCtorEq]
            rintro (⟨e, he⟩ | ⟨receipt, resp1, params1, handler1, h1, h2, h3, h4, _⟩)
            · simp at he
            · rw [hr] at h1
              cases h1
              rw [hd] at h2
              cases h2
              rw [hh] at h3
              cases h3
              rw [hp] at h4
              cases h4
          | none =>
            rw [cycleOutcome_acknowledged env queue waitSeconds resp params handler
              hr hd hh hp] at hend
            simp at hend
            simp only [hend.1, true_iff]
            exact Or.inr ⟨resp.ReceiptHandle, resp, params, handler, hr, hd, hh, hp, rfl⟩
  · intro resp err hr hd
    apply hblocked
    rw [cycleOutcome_decodeError env queue waitSeconds resp err hr hd]
  · intro resp params handler err hr hd hh hp
    apply hblocked
    rw [cycleOutcome_handlerError env queue waitSeconds resp params handler err hr hd hh hp]

/-- The cycle of C3 on the sample queue `orders` with a rejecting handler: it
ends with the caller blocked on the end channel; so does the cycle on the
sample queue `garbled`, whose message does not decode. -/
theorem ReceiveMessage_returns_iff_witness :
    Reachable sampleEnv rejectingQueue 0 (ReceiveMessage sampleEnv rejectingQueue 0) ∧
      Terminal sampleEnv rejectingQueue 0 (ReceiveMessage sampleEnv rejectingQueue 0) ∧
      (ReceiveMessage sampleEnv rejectingQueue 0).main ≠ .returned ∧
      (ReceiveMessage sampleEnv rejectingQueue 0).main = .waitEnd ∧
      (ReceiveMessage sampleEnv rejectingQueue 0).worker = .done ∧
      (ReceiveMessage sampleEnv garbledQueue 0).main = .waitEnd ∧
      (ReceiveMessage sampleEnv garbledQueue 0).worker = .done :=
  have h := (ReceiveMessage_returns_iff sampleEnv rejectingQueue 0 _
    (ReceiveMessage_reachable sampleEnv rejectingQueue 0)).2.2
      ⟨"b64:\"hello|urgent|abc-123|billing|md5(abc-123secret-1)", "receipt-1"⟩ sampleParams
      (fun _ => some "boom") "boom" (by decide) (by decide) rfl rfl
  have g := (ReceiveMessage_returns_iff sampleEnv garbledQueue 0 _
    (ReceiveMessage_reachable sampleEnv garbledQueue 0)).2.1
      ⟨"not base64", "receipt-2"⟩ "unexpected end of JSON input" (by decide) (by decide)
  ⟨ReceiveMessage_reachable sampleEnv rejectingQueue 0,
    ReceiveMessage_terminal sampleEnv rejectingQueue 0, h.1,
    (h.2 (ReceiveMessage_terminal sampleEnv rejectingQueue 0)).1,
    (h.2 (ReceiveMessage_terminal sampleEnv rejectingQueue 0)).2,
    (g.2 (ReceiveMessage_terminal sampleEnv garbledQueue 0)).1,
    (g.2 (ReceiveMessage_terminal sampleEnv garbledQueue 0)).2⟩

/-! ## Lemmas on the registry -/

theorem listenLoop_eq (items : GoMap) (w : World) :
    listenLoop items w = { w with goroutines := w.goroutines ++ listenTasks w items } := by
  induction items generalizing w with
  | nil => simp [listenLoop, listenTasks]
  | cons entry rest ih =>
    obtain ⟨name, item⟩ := entry
    simp only [listenLoop]
    cases hh : (w.queues item).Handler with
    | none =>
      simp only []
      rw [ih]
      simp [listenTasks, hh]
    | some handler =>
      simp only []
      rw [ih]
      simp [listenTasks, hh]

theorem ListenQueues_eq (a : Nat) (w : World) :
    ListenQueues a w =
      { w with goroutines := w.goroutines ++ listenTasks w (entries (w.clients a).queueItems) } := by
  unfold ListenQueues
  simp only []
  split
  · rename_i h
    rw [List.length_eq_zero.mp h]
    simp [listenTasks]
  · exact listenLoop_eq _ w

theorem listenTasks_queues (w : World) (items : GoMap) :
    (listenTasks w items).map ListenTask.queue =
      (items.filter fun entry => hasHandler w entry.2).map Prod.snd := by
  induction items with
  | nil => rfl
  | cons entry rest ih =>
    obtain ⟨name, item⟩ := entry
    cases hh : (w.queues item).Handler with
    | none =>
      have : hasHandler w item = false := by simp [hasHandler, hh]
      simpa [listenTasks, List.filterMap_cons, hh, List.filter_cons, this] using ih
    | some handler =>
      have : hasHandler w item = true := by simp [hasHandler, hh]
      simpa [listenTasks, List.filterMap_cons, hh, List.filter_cons, this] using ih

theorem listenTasks_mem (w : World) (items : GoMap) (t : ListenTask)
    (ht : t ∈ listenTasks w items) :
    t.waitSeconds = (w.queues t.queue).WaitSecond ∧ (w.queues t.queue).Handler ≠ none ∧
      ∃ name, (name, t.queue) ∈ items := by
  simp only [listenTasks, List.mem_filterMap] at ht
  obtain ⟨⟨name, item⟩, hmem, hsome⟩ := ht
  cases hh : (w.queues item).Handler with
  | none => simp [hh] at hsome
  | some handler =>
    simp [hh] at hsome
    subst hsome
    exact ⟨rfl, by simp [hh], name, hmem⟩

/-- C7. `Client.ListenQueues` changes nothing in memory but the list of started
goroutines; the tasks it starts are, one for one and in order, the registry
entries whose queue has a handler, each with that queue's own `WaitSecond`; no
task is started for a queue whose handler is nil; and an empty (or nil) registry
starts nothing. -/
theorem ListenQueues_starts_handler_queues (a : Nat) (w : World) :
    ∃ started : List ListenTask,
      ListenQueues a w = { w with goroutines := w.goroutines ++ started } ∧
      started.map ListenTask.queue =
        ((entries (w.clients a).queueItems).filter fun entry => hasHandler w entry.2).map
          Prod.snd ∧
      (∀ t ∈ started, t.waitSeconds = (w.queues t.queue).WaitSecond ∧
        ∃ name, (name, t.queue) ∈ entries (w.clients a).queueItems) ∧
      (∀ q, (w.queues q).Handler = none → ∀ t ∈ started, t.queue ≠ q) ∧
      (∀ name q, (name, q) ∈ entries (w.clients a).queueItems →
        (w.queues q).Handler ≠ none → ⟨q, (w.queues q).WaitSecond⟩ ∈ started) ∧
      (entries (w.clients a).queueItems = [] → started = []) ∧
      (ListenQueues a w).clients = w.clients ∧ (ListenQueues a w).queues = w.queues ∧
      (ListenQueues a w).client = w.client := by
  refine ⟨listenTasks w (entries (w.clients a).queueItems), ListenQueues_eq a w,
    listenTasks_queues w _, ?_, ?_, ?_, ?_, ?_, ?_, ?_⟩
  · intro t ht
    have := listenTasks_mem w _ t ht
    exact ⟨this.1, this.2.2⟩
  · intro q hq t ht heq
    have := (listenTasks_mem w _ t ht).2.1
    rw [heq] at this
    exact this hq
  · intro name q hmem hh
    simp only [listenTasks, List.mem_filterMap]
    refine ⟨(name, q), hmem, ?_⟩
    cases hq : (w.queues q).Handler with
    | none => exact absurd hq hh
    | some handler => simp
  · intro h
    rw [h]
    rfl
  · rw [ListenQueues_eq]
  · rw [ListenQueues_eq]
  · rw [ListenQueues_eq]

/-- C7 on the sample process with the queues `orders` (handler, wait 10) and
`audit` (no handler): one task, for `orders`, with its wait of 10 seconds. -/
theorem ListenQueues_starts_handler_queues_witness :
    (ListenQueues 0 World.listening).goroutines = [⟨0, 10⟩] := by
  obtain ⟨started, h1, h2, h3, _⟩ := ListenQueues_starts_handler_queues 0 World.listening
  have hq : started.map ListenTask.queue = [0] := by
    rw [h2]
    decide
  rw [h1]
  match started, hq, h3 with
  | [t], hq, h3 =>
    have hw := (h3 t (List.mem_singleton.mpr rfl)).1
    simp only [List.map_cons, List.map_nil, List.cons.injEq, and_true] at hq
    obtain ⟨q, ws⟩ := t
    simp only at hq hw
    subst hq
    rw [hw]
    decide

/-- C4, as stated, fails. `Queue.ReceiveMessage` on the sample queue `orders`
with a nil handler: the cycle is complete, the transport was asked for a message
with the default wait of 30 seconds, and the worker panicked on the call of the
nil handler, so the caller has not returned. -/
theorem ReceiveMessage_nil_handler_polls :
    inertQueue.Handler = none ∧
      Reachable sampleEnv inertQueue 0 (ReceiveMessage sampleEnv inertQueue 0) ∧
      Terminal sampleEnv inertQueue 0 (ReceiveMessage sampleEnv inertQueue 0) ∧
      Event.receive inertQueue.inst 30 ∈ (ReceiveMessage sampleEnv inertQueue 0).trace ∧
      (ReceiveMessage sampleEnv inertQueue 0).worker = .panicked ∧
      (ReceiveMessage sampleEnv inertQueue 0).main ≠ .returned :=
  ⟨rfl, ReceiveMessage_reachable sampleEnv inertQueue 0,
    ReceiveMessage_terminal sampleEnv inertQueue 0, by decide, by decide, by decide⟩

/-- C4, amended. A queue whose handler is nil is inert through
`Client.ListenQueues`: no listen task is started for it, whatever the registry
holds. `Queue.ReceiveMessage` itself does not test the handler: on such a queue
the cycle never invokes a handler and never deletes, but every cycle that has
run out of steps began with one receive request to the transport, with the wait
time of the call (30 for 0). -/
theorem nil_handler_queue_is_inert (env : Env) (queue : Queue) (waitSeconds : Int)
    (c : Config) (hq : queue.Handler = none) (hc : Reachable env queue waitSeconds c) :
    (∀ (w : World) (a q : Nat), (w.queues q).Handler = none →
      ∃ started, ListenQueues a w = { w with goroutines := w.goroutines ++ started } ∧
        ∀ t ∈ started, t.queue ≠ q) ∧
    deleteCalls c.trace = [] ∧
    (∀ params result, Event.handler params result ∉ c.trace) ∧
    (Terminal env queue waitSeconds c →
      ∃ rest, c.trace = Event.receive queue.inst (pollSeconds waitSeconds) :: rest ∧
        ∀ q wait, Event.receive q wait ∉ rest) := by
  have hpre := Reachable_trace_initial env queue waitSeconds c hc
  have hout : ∃ tail, (cycleOutcome env queue waitSeconds).2 =
      Event.receive queue.inst (pollSeconds waitSeconds) :: tail ∧
      (∀ e ∈ tail, (∃ action context, e = .info action context) ∨ ∃ args, e = .debug args) := by
    cases hr : env.queueReceive queue.inst (pollSeconds waitSeconds) with
    | error err =>
      rw [cycleOutcome_receiveError env queue waitSeconds err hr]
      exact ⟨_, rfl, by simp⟩
    | ok resp =>
      cases hd : env.unmarshal (env.DecodeBase64Str resp.MessageBody) with
      | error err =>
        rw [cycleOutcome_decodeError env queue waitSeconds resp err hr hd]
        exact ⟨_, rfl, by simp⟩
      | ok params =>
        rw [cycleOutcome_nilHandler env queue waitSeconds resp params hr hd hq]
        exact ⟨_, rfl, by simp [receiveRecord]⟩
  obtain ⟨tail, htail, hkind⟩ := hout
  have hmem : ∀ e ∈ c.trace, e = Event.receive queue.inst (pollSeconds waitSeconds) ∨
      (∃ action context, e = .info action context) ∨ ∃ args, e = .debug args := by
    intro e he
    have := hpre.subset he
    rw [htail] at this
    rcases List.mem_cons.mp this with h | h
    · exact Or.inl h
    · exact Or.inr (hkind e h)
  refine ⟨?_, ?_, ?_, ?_⟩
  · intro w a q hnil
    refine ⟨listenTasks w (entries (w.clients a).queueItems), ListenQueues_eq a w, ?_⟩
    intro t ht heq
    have := (listenTasks_mem w _ t ht).2.1
    rw [heq] at this
    exact this hnil
  · apply deleteCalls_nil_of_initial _ _ hpre
    rw [htail]
    have : ∀ l : List Event,
        (∀ e ∈ l, (∃ action context, e = Event.info action context) ∨
          ∃ args, e = Event.debug args) → deleteCalls l = [] := by
      intro l
      induction l with
      | nil => intro _; rfl
      | cons e rest ih =>
        intro h
        have hrest := ih (fun x hx => h x (List.mem_cons_of_mem _ hx))
        rcases h e (List.mem_cons_self _ _) with ⟨_, _, rfl⟩ | ⟨_, rfl⟩ <;>
          simpa [deleteCalls] using hrest
    show deleteCalls tail = []
    exact this tail hkind
  · intro params result hin
    rcases hmem _ hin with h | ⟨_, _, h⟩ | ⟨_, h⟩ <;> cases h
  · intro hterm
    have htr := (Reachable_terminal env queue waitSeconds c hc hterm).1
    rw [htail] at htr
    refine ⟨tail, htr, ?_⟩
    intro q wait hin
    rcases hkind _ hin with ⟨_, _, h⟩ | ⟨_, h⟩ <;> cases h

/-- The amended C4 on the sample queue `orders` without a handler: the complete
cycle has polled the transport, and has deleted nothing. -/
theorem nil_handler_queue_is_inert_witness :
    inertQueue.Handler = none ∧
      Reachable sampleEnv inertQueue 0 (ReceiveMessage sampleEnv inertQueue 0) ∧
      deleteCalls (ReceiveMessage sampleEnv inertQueue 0).trace = [] ∧
      ∃ rest, (ReceiveMessage sampleEnv inertQueue 0).trace =
        Event.receive inertQueue.inst (pollSeconds 0) :: rest ∧
        ∀ q wait, Event.receive q wait ∉ rest :=
  have h := nil_handler_queue_is_inert sampleEnv inertQueue 0 _ rfl
    (ReceiveMessage_reachable sampleEnv inertQueue 0)
  ⟨rfl, ReceiveMessage_reachable sampleEnv inertQueue 0, h.2.1,
    h.2.2.2 (ReceiveMessage_terminal sampleEnv inertQueue 0)⟩

/-! ## Publishing -/

theorem traced_named_Sign (env : Env) (params : Params) :
    (PublishMessage.traced env (PublishMessage.named env params)).Sign = params.Sign := by
  unfold PublishMessage.traced PublishMessage.named
  split <;> split <;> rfl

theorem defaults_isSome (env : Env) (w : World) (params : Params)
    (hinit : w.client ≠ none ∨ params.Sign ≠ "") :
    ∃ filled, PublishMessage.defaults env w params = some filled := by
  unfold PublishMessage.defaults PublishMessage.signed
  rw [traced_named_Sign]
  by_cases hs : params.Sign = ""
  · rw [if_pos hs]
    cases hc : w.client with
    | some a => exact ⟨_, rfl⟩
    | none =>
      rcases hinit with h | h
      · exact absurd hc h
      · exact absurd hs h
  · rw [if_neg hs]
    exact ⟨_, rfl⟩

/-- C5, as stated, fails. A client that `InitClient` did not make (its nil
registry is allocated by `GetTopic`) hands out the topic `events` while the
package variable `client` is nil. Publishing the unsigned `bareParams` to it,
which serialises, panics on `client.conf`: nothing is returned, the transport is
not called and no record is emitted. -/
theorem PublishMessage_panics_without_client :
    (GetTopic 0 "events" World.start).1 = .returned (some 0) ∧
      (GetTopic 0 "events" World.start).2.client = none ∧
      sampleEnv.marshal bareParams = .ok "\"hello|urgent|||" ∧
      PublishMessage sampleEnv (GetTopic 0 "events" World.start).2
        ((GetTopic 0 "events" World.start).2.topics 0) bareParams "" = (.panicked, []) :=
  ⟨by decide, by decide, by decide, by decide⟩

/-- C5, amended. `Topic.PublishMessage` on an initialised client (or with a
signed envelope). When serialising fails it returns `(nil, err)` with that error, the
transport is not called and nothing is logged. When the transport's publish
fails it returns `(nil, err)` with the transport's error, after exactly one
transport call and no record. It returns `(nil, err)` in these two cases only.
Otherwise it calls the transport exactly once, with the encoded body and the
filter tag, emits exactly one record and returns the transport's response with a
nil error. -/
theorem PublishMessage_outcomes (env : Env) (w : World) (topic : Topic) (params : Params)
    (filterTag : String) (hinit : w.client ≠ none ∨ params.Sign ≠ "") :
    (∀ err, env.marshal params = .error err →
      PublishMessage env w topic params filterTag = (.returned (none, some err), [])) ∧
    (∀ bytes err, env.marshal params = .ok bytes →
      env.topicPublish topic.inst ⟨env.encodeBase64 bytes, filterTag⟩ = .error err →
      PublishMessage env w topic params filterTag =
        (.returned (none, some err),
         [.publish topic.inst ⟨env.encodeBase64 bytes, filterTag⟩])) ∧
    (∀ bytes resp, env.marshal params = .ok bytes →
      env.topicPublish topic.inst ⟨env.encodeBase64 bytes, filterTag⟩ = .ok resp →
      ∃ context,
        PublishMessage env w topic params filterTag =
          (.returned (some resp, none),
           [.publish topic.inst ⟨env.encodeBase64 bytes, filterTag⟩,
            .info "publishMessage" context])) ∧
    (∀ err, (PublishMessage env w topic params filterTag).1 = .returned (none, some err) ↔
      (env.marshal params = .error err ∨
        ∃ bytes, env.marshal params = .ok bytes ∧
          env.topicPublish topic.inst ⟨env.encodeBase64 bytes, filterTag⟩ = .error err)) ∧
    (∀ err, (PublishMessage env w topic params filterTag).1 = .returned (none, some err) →
      infoRecords (PublishMessage env w topic params filterTag).2 = [] ∧
      (publishCalls (PublishMessage env w topic params filterTag).2).length ≤ 1) ∧
    ((∀ err, (PublishMessage env w topic params filterTag).1 ≠ .returned (none, some err)) →
      ∃ resp, (PublishMessage env w topic params filterTag).1 = .returned (some resp, none) ∧
        (publishCalls (PublishMessage env w topic params filterTag).2).length = 1 ∧
        (infoRecords (PublishMessage env w topic params filterTag).2).length = 1) := by
  obtain ⟨filled, hfilled⟩ := defaults_isSome env w params hinit
  cases hm : env.marshal params with
  | error e =>
    have hres : PublishMessage env w topic params filterTag = (.returned (none, some e), []) := by
      simp [PublishMessage, hm]
    rw [hres]
    refine ⟨?_, ?_, ?_, ?_, ?_, ?_⟩
    · intro err h; cases h; rfl
    · intro bytes err h; cases h
    · intro bytes resp h; cases h
    · intro err
      simp
    · intro err _
      exact ⟨rfl, by simp [publishCalls]⟩
    · intro h
      exact absurd rfl (h e)
  | ok bytes =>
    cases hp : env.topicPublish topic.inst ⟨env.encodeBase64 bytes, filterTag⟩ with
    | error e =>
      have hres : PublishMessage env w topic params filterTag =
          (.returned (none, some e),
           [.publish topic.inst ⟨env.encodeBase64 bytes, filterTag⟩]) := by
        simp [PublishMessage, hm, hfilled, hp]
      rw [hres]
      refine ⟨?_, ?_, ?_, ?_, ?_, ?_⟩
      · intro err h; cases h
      · intro bytes1 err h1 h2
        cases h1
        rw [hp] at h2
        cases h2
        rfl
      · intro bytes1 resp h1 h2
        cases h1
        rw [hp] at h2
        cases h2
      · intro err
        constructor
        · intro h
          simp at h
          subst h
          exact Or.inr ⟨bytes, rfl, hp⟩
        · rintro (h | ⟨bytes1, h1, h2⟩)
          · cases h
          · cases h1
            rw [hp] at h2
            cases h2
            rfl
      · intro err _
        exact ⟨rfl, by simp [publishCalls]⟩
      · intro h
        exact absurd rfl (h e)
    | ok resp =>
      have hres : PublishMessage env w topic params filterTag =
          (.returned (some resp, none),
           [.publish topic.inst ⟨env.encodeBase64 bytes, filterTag⟩,
            .info "publishMessage"
              (PublishMessage.logContext env topic filled filterTag resp)]) := by
        simp [PublishMessage, hm, hfilled, hp]
      rw [hres]
      refine ⟨?_, ?_, ?_, ?_, ?_, ?_⟩
      · intro err h; cases h
      · intro bytes1 err h1 h2
        cases h1
        rw [hp] at h2
        cases h2
      · intro bytes1 resp1 h1 h2
        cases h1
        rw [hp] at h2
        cases h2
        exact ⟨_, rfl⟩
      · intro err
        constructor
        · intro h
          simp at h
        · rintro (h | ⟨bytes1, h1, h2⟩)
          · cases h
          · cases h1
            rw [hp] at h2
            cases h2
      · intro err h
        simp at h
      · intro _
        exact ⟨resp, rfl, by simp [publishCalls], by simp [infoRecords, publishCalls]⟩

/-- The amended C5 on the sample topic, with the transport failing on the filter tag `fail`:
the transport's error comes back after one transport call and no record. -/
theorem PublishMessage_outcomes_witness :
    (World.configured.client ≠ none ∨ bareParams.Sign ≠ "") ∧
      PublishMessage sampleEnv World.configured sampleTopic bareParams "fail" =
        (.returned (none, some "connection refused"),
         [.publish sampleTopic.inst ⟨"b64:\"hello|urgent|||", "fail"⟩]) :=
  ⟨Or.inl (by decide),
    (PublishMessage_outcomes sampleEnv World.configured sampleTopic bareParams "fail"
      (Or.inl (by decide))).2.1 "\"hello|urgent|||" "connection refused" (by decide)
      (by decide)⟩

theorem defaults_of_bare (env : Env) (w : World) (params : Params) (a : Nat)
    (hinit : w.client = some a) (ht : params.TraceId = "") (hs : params.Sign = "")
    (hn : params.ReferServiceName = "") :
    PublishMessage.defaults env w params =
      some { Content := params.Content, Tag := params.Tag, TraceId := env.UniqueId,
             ReferServiceName := env.systemName,
             Sign := env.GetMd5String (env.UniqueId ++ (w.clients a).conf.AccessKeySecret) } := by
  simp [PublishMessage.defaults, PublishMessage.signed, PublishMessage.traced,
    PublishMessage.named, hinit, ht, hs, hn, Params.GenerateSign]

/-- C1, on the code. For an envelope passed to `Topic.PublishMessage` with an
empty `TraceId`, `Sign` and `ReferServiceName`, on an initialised client and
with a codec that gives the envelope back: the transport is called once, and the
body it is handed is the encoding of the envelope as it was passed in, made
before the defaults were filled in. It decodes to an envelope whose trace id,
service name and signature are all empty; the trace id, the service name and
the signature under the client's secret exist only in the local copy that is
logged. -/
theorem PublishMessage_body_lacks_defaults (env : Env) (w : World) (topic : Topic)
    (params : Params) (filterTag : String) (bytes : String) (a : Nat)
    (hinit : w.client = some a) (hm : env.marshal params = .ok bytes)
    (hround : env.unmarshal (env.DecodeBase64Str (env.encodeBase64 bytes)) = .ok params)
    (ht : params.TraceId = "") (hs : params.Sign = "") (hn : params.ReferServiceName = "") :
    publishCalls (PublishMessage env w topic params filterTag).2 =
        [⟨env.encodeBase64 bytes, filterTag⟩] ∧
      (∀ request ∈ publishCalls (PublishMessage env w topic params filterTag).2,
        ∃ sent, env.unmarshal (env.DecodeBase64Str request.MessageBody) = .ok sent ∧
          sent = params ∧ sent.TraceId = "" ∧ sent.ReferServiceName = "" ∧ sent.Sign = "") ∧
      ∃ filled,
        PublishMessage.defaults env w params = some filled ∧
        filled.TraceId = env.UniqueId ∧ filled.ReferServiceName = env.systemName ∧
        filled.Sign =
          filled.GenerateSign env.GetMd5String (w.clients a).conf.AccessKeySecret ∧
        (∀ resp, env.topicPublish topic.inst ⟨env.encodeBase64 bytes, filterTag⟩ = .ok resp →
          infoRecords (PublishMessage env w topic params filterTag).2 =
            [("publishMessage", PublishMessage.logContext env topic filled filterTag resp)]) := by
  have hfilled := defaults_of_bare env w params a hinit ht hs hn
  have hcalls : publishCalls (PublishMessage env w topic params filterTag).2 =
      [⟨env.encodeBase64 bytes, filterTag⟩] := by
    cases hp : env.topicPublish topic.inst ⟨env.encodeBase64 bytes, filterTag⟩ <;>
      simp [PublishMessage, hm, hfilled, hp, publishCalls]
  refine ⟨hcalls, ?_, _, hfilled, rfl, rfl, rfl, ?_⟩
  · intro request hreq
    rw [hcalls] at hreq
    simp at hreq
    subst hreq
    exact ⟨params, hround, rfl, ht, hn, hs⟩
  · intro resp hp
    simp [PublishMessage, hm, hfilled, hp, infoRecords]

/-- C1 on the sample topic: the body handed to the transport for `bareParams`
decodes to `bareParams` itself, with its empty trace id. -/
theorem PublishMessage_body_lacks_defaults_witness :
    World.configured.client = some 0 ∧
      sampleEnv.marshal bareParams = .ok "\"hello|urgent|||" ∧
      sampleEnv.unmarshal (sampleEnv.DecodeBase64Str "b64:\"hello|urgent|||") =
        .ok bareParams ∧
      bareParams.TraceId = "" ∧
      publishCalls (PublishMessage sampleEnv World.configured sampleTopic bareParams "").2 =
        [⟨"b64:\"hello|urgent|||", ""⟩] :=
  ⟨by decide, by decide, by decide, by decide,
    (PublishMessage_body_lacks_defaults sampleEnv World.configured sampleTopic
      bareParams "" "\"hello|urgent|||" 0 (by decide) (by decide) (by decide) (by decide)
      (by decide) (by decide)).1⟩

/-! ## The signature -/

theorem append_left_cancel (s k1 k2 : String) (h : s ++ k1 = s ++ k2) : k1 = k2 := by
  have hdata := congrArg String.data h
  simp only [String.data_append] at hdata
  exact String.ext (List.append_cancel_left hdata)

theorem append_right_cancel (s1 s2 k : String) (h : s1 ++ k = s2 ++ k) : s1 = s2 := by
  have hdata := congrArg String.data h
  simp only [String.data_append] at hdata
  exact String.ext (List.append_cancel_right hdata)

/-- C8, as stated, fails. With the identity as digest, which is injective, the
envelope with trace id `a` signed with the key `bc` and the envelope with trace
id `ab` signed with the key `c` differ in trace id and in key, and get the same
signature: the digested string is `abc` in both. -/
theorem GenerateSign_collision_when_both_change :
    Function.Injective (id : String → String) ∧
      (⟨.null, "", "a", "", ""⟩ : Params).TraceId ≠ (⟨.null, "", "ab", "", ""⟩ : Params).TraceId ∧
      "bc" ≠ "c" ∧
      (⟨.null, "", "a", "", ""⟩ : Params).GenerateSign id "bc" =
        (⟨.null, "", "ab", "", ""⟩ : Params).GenerateSign id "c" :=
  ⟨Function.injective_id, by decide, by decide, by decide⟩

/-- C8, amended. `Params.GenerateSign(key)` is the digest of `TraceId ++ key` and
of nothing else: envelopes with the same trace id get the same signature under
the same key, whatever their other fields. Under an injective digest, changing
the trace id alone (same key) changes the signature, and changing the key alone
(same trace id) changes the signature. -/
theorem GenerateSign_depends_on_trace_and_key (digest : String → String)
    (hinj : Function.Injective digest) (p1 p2 : Params) (k1 k2 : String) :
    p1.GenerateSign digest k1 = digest (p1.TraceId ++ k1) ∧
      (p1.TraceId = p2.TraceId → p1.GenerateSign digest k1 = p2.GenerateSign digest k1) ∧
      (p1.TraceId ≠ p2.TraceId → p1.GenerateSign digest k1 ≠ p2.GenerateSign digest k1) ∧
      (k1 ≠ k2 → p1.GenerateSign digest k1 ≠ p1.GenerateSign digest k2) := by
  refine ⟨rfl, ?_, ?_, ?_⟩
  · intro h
    simp [Params.GenerateSign, h]
  · intro h heq
    exact h (append_right_cancel _ _ _ (hinj heq))
  · intro h heq
    exact h (append_left_cancel _ _ _ (hinj heq))

/-- The amended C8 with the identity as digest: two trace ids under one key,
and two keys under one trace id. -/
theorem GenerateSign_depends_on_trace_and_key_witness :
    Function.Injective (id : String → String) ∧
      sampleParams.GenerateSign id "secret-1" ≠ bareParams.GenerateSign id "secret-1" ∧
      sampleParams.GenerateSign id "secret-1" ≠ sampleParams.GenerateSign id "secret-2" :=
  have h := GenerateSign_depends_on_trace_and_key id Function.injective_id sampleParams
    bareParams "secret-1" "secret-2"
  ⟨Function.injective_id, h.2.2.1 (by decide), h.2.2.2 (by decide)⟩

/-! ## The client singleton -/

theorem store_same {α : Type} (heap : Nat → α) (a : Nat) (v : α) : store heap a v a = v := by
  simp [store]

theorem store_other {α : Type} (heap : Nat → α) (a b : Nat) (v : α) (h : b ≠ a) :
    store heap a v b = heap b := by
  simp [store, h]

theorem store_self {α : Type} (heap : Nat → α) (a : Nat) : store heap a (heap a) = heap := by
  funext x
  by_cases h : x = a
  · subst h; simp [store]
  · simp [store, h]

theorem InitClient_first (env : Env) (conf : Conf) (w : World) (h : w.client = none) :
    (InitClient env conf w).2.client = some w.nextClient ∧
      ((InitClient env conf w).2.clients w.nextClient).conf = conf ∧
      ((InitClient env conf w).2.clients w.nextClient).queueItems = some [] ∧
      ((InitClient env conf w).2.clients w.nextClient).topicItems = some [] ∧
      (InitClient env conf w).2.queues = w.queues ∧
      (InitClient env conf w).2.topics = w.topics ∧
      (env.accepts conf.Url = true →
        (InitClient env conf w).1 = .returned w.nextClient ∧
        ((InitClient env conf w).2.clients w.nextClient).inst =
          some ⟨conf.Url, conf.AccessKeyId, conf.AccessKeySecret⟩) ∧
      (env.accepts conf.Url = false →
        (InitClient env conf w).1 = .panicked ∧
        ((InitClient env conf w).2.clients w.nextClient).inst = none) := by
  cases hacc : env.accepts conf.Url <;> simp [InitClient, NewAliMNSClient, h, hacc, store]

theorem InitClient_later (env : Env) (conf : Conf) (w : World) (a : Nat)
    (h : w.client = some a) :
    (InitClient env conf w).2.client = some a ∧
      ((InitClient env conf w).2.clients a).conf = (w.clients a).conf ∧
      ((InitClient env conf w).2.clients a).queueItems = (w.clients a).queueItems ∧
      ((InitClient env conf w).2.clients a).topicItems = (w.clients a).topicItems ∧
      (InitClient env conf w).2.queues = w.queues ∧
      (InitClient env conf w).2.topics = w.topics ∧
      (env.accepts conf.Url = true →
        (InitClient env conf w).1 = .returned a ∧
        ((InitClient env conf w).2.clients a).inst =
          some ⟨conf.Url, conf.AccessKeyId, conf.AccessKeySecret⟩) ∧
      (env.accepts conf.Url = false →
        (InitClient env conf w).1 = .panicked ∧
        ((InitClient env conf w).2.clients a).inst = (w.clients a).inst) := by
  cases hacc : env.accepts conf.Url <;> simp [InitClient, NewAliMNSClient, h, hacc, store]

theorem initCalls_later (env : Env) (confs : List Conf) (w : World) (a : Nat)
    (h : w.client = some a) :
    (initCalls env confs w).1 = confs.map (initAnswer env a) ∧
      (initCalls env confs w).2.client = some a ∧
      ((initCalls env confs w).2.clients a).conf = (w.clients a).conf ∧
      ((initCalls env confs w).2.clients a).queueItems = (w.clients a).queueItems ∧
      ((initCalls env confs w).2.clients a).topicItems = (w.clients a).topicItems ∧
      (initCalls env confs w).2.queues = w.queues ∧
      (initCalls env confs w).2.topics = w.topics := by
  induction confs generalizing w with
  | nil => simp [initCalls, h]
  | cons conf rest ih =>
    obtain ⟨h1, h2, h3, h4, h5, h6, h7, h8⟩ := InitClient_later env conf w a h
    obtain ⟨i1, i2, i3, i4, i5, i6, i7⟩ := ih (InitClient env conf w).2 h1
    simp only [initCalls, List.map_cons]
    refine ⟨?_, i2, ?_, ?_, ?_, ?_, ?_⟩
    · rw [i1]
      congr 1
      cases hacc : env.accepts conf.Url
      · simp [initAnswer, hacc, (h8 hacc).1]
      · simp [initAnswer, hacc, (h7 hacc).1]
    · rw [i3, h2]
    · rw [i4, h3]
    · rw [i5, h4]
    · rw [i6, h5]
    · rw [i7, h6]

/-- C9, as stated, fails. The first `InitClient` of a process, with a
configuration whose Url is empty: the package variable is set to a new client
with empty registries, then `ali_mns.NewAliMNSClient` panics; the call returns
no client, and the client is left with a nil connection. -/
theorem InitClient_empty_url_panics :
    World.start.client = none ∧
      (InitClient sampleEnv confNoUrl World.start).1 = .panicked ∧
      (InitClient sampleEnv confNoUrl World.start).2.client = some 0 ∧
      ((InitClient sampleEnv confNoUrl World.start).2.clients 0).inst = none ∧
      ((InitClient sampleEnv confNoUrl World.start).2.clients 0).queueItems = some [] :=
  ⟨rfl, by decide, by decide, by decide, by decide⟩

/-- C9, amended. `InitClient` is a singleton initialiser. After every call the
package variable holds a client. A call whose Url the SDK accepts returns that
client and sets its connection to the one built from the call's `Url`,
`AccessKeyId` and `AccessKeySecret`; a call whose Url it does not accept panics.
The first call (the variable is nil) leaves the client with its own
configuration and allocated, empty queue and topic registries. A later call,
returning or not, keeps the client already there, its queue and topic
registries, entry for entry, and the queue and topic objects. Along every
sequence of further calls each call returns the same client or panics, and the
registries stay as they are. -/
theorem InitClient_singleton (env : Env) (conf : Conf) (w : World) :
    ∃ a,
      (InitClient env conf w).2.client = some a ∧
      (env.accepts conf.Url = true →
        (InitClient env conf w).1 = .returned a ∧
        ((InitClient env conf w).2.clients a).inst =
          some ⟨conf.Url, conf.AccessKeyId, conf.AccessKeySecret⟩) ∧
      (env.accepts conf.Url = false → (InitClient env conf w).1 = .panicked) ∧
      (w.client = none →
        ((InitClient env conf w).2.clients a).conf = conf ∧
        ((InitClient env conf w).2.clients a).queueItems = some [] ∧
        ((InitClient env conf w).2.clients a).topicItems = some []) ∧
      (∀ a0, w.client = some a0 →
        a = a0 ∧
        ((InitClient env conf w).2.clients a).queueItems = (w.clients a).queueItems ∧
        ((InitClient env conf w).2.clients a).topicItems = (w.clients a).topicItems ∧
        (∀ name, GoMap.lookup name (entries ((InitClient env conf w).2.clients a).queueItems) =
          GoMap.lookup name (entries (w.clients a).queueItems)) ∧
        (∀ name, GoMap.lookup name (entries ((InitClient env conf w).2.clients a).topicItems) =
          GoMap.lookup name (entries (w.clients a).topicItems))) ∧
      (InitClient env conf w).2.queues = w.queues ∧
      (InitClient env conf w).2.topics = w.topics ∧
      (∀ later : List Conf,
        (initCalls env later (InitClient env conf w).2).1 = later.map (initAnswer env a) ∧
        (∀ p, Outcome.returned p ∈ (initCalls env later (InitClient env conf w).2).1 → p = a) ∧
        (initCalls env later (InitClient env conf w).2).2.client = some a ∧
        ((initCalls env later (InitClient env conf w).2).2.clients a).queueItems =
          ((InitClient env conf w).2.clients a).queueItems ∧
        ((initCalls env later (InitClient env conf w).2).2.clients a).topicItems =
          ((InitClient env conf w).2.clients a).topicItems) := by
  have hseq : ∀ a, (InitClient env conf w).2.client = some a → ∀ later : List Conf,
      (initCalls env later (InitClient env conf w).2).1 = later.map (initAnswer env a) ∧
      (∀ p, Outcome.returned p ∈ (initCalls env later (InitClient env conf w).2).1 → p = a) ∧
      (initCalls env later (InitClient env conf w).2).2.client = some a ∧
      ((initCalls env later (InitClient env conf w).2).2.clients a).queueItems =
        ((InitClient env conf w).2.clients a).queueItems ∧
      ((initCalls env later (InitClient env conf w).2).2.clients a).topicItems =
        ((InitClient env conf w).2.clients a).topicItems := by
    intro a ha later
    obtain ⟨i1, i2, _, i4, i5, _⟩ := initCalls_later env later (InitClient env conf w).2 a ha
    refine ⟨i1, ?_, i2, i4, i5⟩
    intro p hp
    rw [i1, List.mem_map] at hp
    obtain ⟨c, _, hc⟩ := hp
    unfold initAnswer at hc
    split at hc
    · cases hc; rfl
    · cases hc
  cases h : w.client with
  | none =>
    obtain ⟨h1, h2, h3, h4, h5, h6, h7, h8⟩ := InitClient_first env conf w h
    refine ⟨w.nextClient, h1, h7, fun hacc => (h8 hacc).1, fun _ => ⟨h2, h3, h4⟩, ?_, h5, h6,
      hseq _ h1⟩
    intro a0 ha0
    cases ha0
  | some a0 =>
    obtain ⟨h1, _, h3, h4, h5, h6, h7, h8⟩ := InitClient_later env conf w a0 h
    refine ⟨a0, h1, h7, fun hacc => (h8 hacc).1, ?_, ?_, h5, h6, hseq _ h1⟩
    · intro hnone
      cases hnone
    · intro a1 ha1
      cases ha1
      exact ⟨rfl, h3, h4, fun _ => by rw [h3], fun _ => by rw [h4]⟩

/-- The amended C9 on the sample process: the first call returns the client at
address 0 with empty registries; of two further calls, the one without a Url
panics and the one with another accepted Url returns the same client. -/
theorem InitClient_singleton_witness :
    (InitClient sampleEnv conf1 World.start).1 = .returned 0 ∧
      (World.configured.clients 0).queueItems = some [] ∧
      (initCalls sampleEnv [confNoUrl, conf2] World.configured).1 = [.panicked, .returned 0] := by
  obtain ⟨a, h1, h2, _, h4, _, _, _, h8⟩ := InitClient_singleton sampleEnv conf1 World.start
  have ha : a = 0 := by
    have h0 : (InitClient sampleEnv conf1 World.start).1 = .returned 0 := by decide
    have := (h2 (by decide)).1
    rw [h0] at this
    cases this
    rfl
  subst ha
  refine ⟨(h2 (by decide)).1, (h4 rfl).2.1, ?_⟩
  have := (h8 [confNoUrl, conf2]).1
  rw [show World.configured = (InitClient sampleEnv conf1 World.start).2 from rfl, this]
  decide

/-- C10, as stated, fails. On the sample process, configured with `conf1`, a
later `InitClient` with a configuration whose Url is empty panics in
`ali_mns.NewAliMNSClient`: the connection is not rebuilt, it is still the one
built from `conf1`. -/
theorem InitClient_rejected_url_keeps_connection :
    World.configured.client = some 0 ∧
      (InitClient sampleEnv confNoUrl World.configured).1 = .panicked ∧
      ((InitClient sampleEnv confNoUrl World.configured).2.clients 0).inst =
        some ⟨conf1.Url, conf1.AccessKeyId, conf1.AccessKeySecret⟩ ∧
      ((InitClient sampleEnv confNoUrl World.configured).2.clients 0).inst ≠
        some ⟨confNoUrl.Url, confNoUrl.AccessKeyId, confNoUrl.AccessKeySecret⟩ :=
  ⟨by decide, by decide, by decide, by decide⟩

/-- C10, amended. The client's stored configuration is the one of the first
`InitClient` call. After a first call with `first`, any further calls, and a
call with `last`, each returning or panicking: the stored configuration is still
`first`; the connection is the one built from `last` when the SDK accepts the
Url of `last`, and is left as it was when it does not; and
`Topic.PublishMessage` signs an unsigned envelope with the `AccessKeySecret` of
`first`: that signature is the one in its record. -/
theorem InitClient_keeps_first_conf (env : Env) (w : World) (first last : Conf)
    (between : List Conf) (hnil : w.client = none) :
    ∃ a,
      (InitClient env last (initCalls env between (InitClient env first w).2).2).2.client =
        some a ∧
      ((InitClient env last (initCalls env between (InitClient env first w).2).2).2.clients
        a).conf = first ∧
      (env.accepts last.Url = true →
        (InitClient env last (initCalls env between (InitClient env first w).2).2).1 =
          .returned a ∧
        ((InitClient env last (initCalls env between (InitClient env first w).2).2).2.clients
          a).inst = some ⟨last.Url, last.AccessKeyId, last.AccessKeySecret⟩) ∧
      (env.accepts last.Url = false →
        (InitClient env last (initCalls env between (InitClient env first w).2).2).1 =
          .panicked ∧
        ((InitClient env last (initCalls env between (InitClient env first w).2).2).2.clients
          a).inst = ((initCalls env between (InitClient env first w).2).2.clients a).inst) ∧
      (∀ params : Params, params.Sign = "" →
        ∃ filled,
          PublishMessage.defaults env
            (InitClient env last (initCalls env between (InitClient env first w).2).2).2
            params = some filled ∧
          filled.Sign = filled.GenerateSign env.GetMd5String first.AccessKeySecret ∧
          ∀ (topic : Topic) (filterTag bytes : String) (resp : MessageSendResponse),
            env.marshal params = .ok bytes →
            env.topicPublish topic.inst ⟨env.encodeBase64 bytes, filterTag⟩ = .ok resp →
            infoRecords (PublishMessage env
              (InitClient env last (initCalls env between (InitClient env first w).2).2).2
              topic params filterTag).2 =
              [("publishMessage",
                PublishMessage.logContext env topic filled filterTag resp)]) := by
  obtain ⟨f1, f2, _⟩ := InitClient_first env first w hnil
  obtain ⟨_, i2, i3, _⟩ :=
    initCalls_later env between (InitClient env first w).2 w.nextClient f1
  obtain ⟨l1, l2, _, _, _, _, l7, l8⟩ :=
    InitClient_later env last (initCalls env between (InitClient env first w).2).2
      w.nextClient i2
  have hconf : ((InitClient env last
      (initCalls env between (InitClient env first w).2).2).2.clients w.nextClient).conf =
      first := by
    rw [l2, i3, f2]
  refine ⟨w.nextClient, l1, hconf, l7, l8, ?_⟩
  intro params hs
  have hsign : (PublishMessage.traced env (PublishMessage.named env params)).Sign = "" := by
    rw [traced_named_Sign, hs]
  have hfilled : PublishMessage.defaults env
      (InitClient env last (initCalls env between (InitClient env first w).2).2).2 params =
      some { PublishMessage.traced env (PublishMessage.named env params) with
        Sign := (PublishMessage.traced env (PublishMessage.named env params)).GenerateSign
          env.GetMd5String first.AccessKeySecret } := by
    simp only [PublishMessage.defaults, PublishMessage.signed, hsign, if_true, l1, hconf]
  refine ⟨_, hfilled, rfl, ?_⟩
  intro topic filterTag bytes resp hm hp
  simp [PublishMessage, hm, hfilled, hp, infoRecords]

/-- The amended C10 on the sample process: after `InitClient(conf1)` and
`InitClient(conf2)` the connection is the one built from `conf2` and the
configuration is `conf1`. -/
theorem InitClient_keeps_first_conf_witness :
    World.start.client = none ∧
      ((InitClient sampleEnv conf2 World.configured).2.clients 0).conf = conf1 ∧
      ((InitClient sampleEnv conf2 World.configured).2.clients 0).inst =
        some ⟨conf2.Url, conf2.AccessKeyId, conf2.AccessKeySecret⟩ := by
  obtain ⟨a, h1, h2, h3, _⟩ := InitClient_keeps_first_conf sampleEnv World.start conf1 conf2 [] rfl
  have ha : a = 0 := by
    have h0 : (InitClient sampleEnv conf2 World.configured).2.client = some 0 := by decide
    have : (InitClient sampleEnv conf2 World.configured).2.client = some a := h1
    rw [h0] at this
    cases this
    rfl
  subst ha
  exact ⟨rfl, h2, (h3 (by decide)).2⟩

/-! ## Get-or-create -/

theorem lookup_insert_self (name : String) (v : Nat) (m : GoMap) :
    GoMap.lookup name (GoMap.insert name v m) = some v := by
  induction m with
  | nil => simp [GoMap.insert, GoMap.lookup]
  | cons entry rest ih =>
    obtain ⟨k, x⟩ := entry
    by_cases h : k = name
    · simp [GoMap.insert, GoMap.lookup, h]
    · simp [GoMap.insert, GoMap.lookup, h, ih]

theorem lookup_insert_other (name other : String) (v : Nat) (m : GoMap) (hne : other ≠ name) :
    GoMap.lookup other (GoMap.insert name v m) = GoMap.lookup other m := by
  have hne2 : ¬ name = other := fun h => hne h.symm
  induction m with
  | nil => simp [GoMap.insert, GoMap.lookup, hne2]
  | cons entry rest ih =>
    obtain ⟨k, x⟩ := entry
    by_cases h : k = name
    · subst h
      simp [GoMap.insert, GoMap.lookup, hne2]
    · by_cases h2 : k = other
      · subst h2
        simp [GoMap.insert, GoMap.lookup, hne]
      · simp [GoMap.insert, GoMap.lookup, h, h2, ih]

theorem lookup_entries_some (m : Option GoMap) (name : String) (p : Nat)
    (h : GoMap.lookup name (entries m) = some p) : ∃ items, m = some items := by
  cases m with
  | none => simp [entries, GoMap.lookup] at h
  | some items => exact ⟨items, rfl⟩

theorem GetQueue_present (a : Nat) (name : String) (w : World) (items : GoMap) (p : Nat)
    (h1 : (w.clients a).queueItems = some items) (h2 : GoMap.lookup name items = some p) :
    GetQueue a name w = (.returned (some p), w) := by
  have hc : ({ w.clients a with queueItems := some items } : Client) = w.clients a := by
    rw [← h1]
  simp only [GetQueue, h1, entries, h2, hc, store_self]

theorem GetQueue_absent (a : Nat) (name : String) (w : World) (hname : name ≠ "")
    (h : GoMap.lookup name (entries (w.clients a).queueItems) = none) :
    GetQueue a name w =
      (.returned (some w.nextQueue),
       { w with
         queues := store w.queues w.nextQueue ⟨name, ⟨name, (w.clients a).inst⟩, none, 0⟩
         nextQueue := w.nextQueue + 1
         clients := store w.clients a
           { w.clients a with
             queueItems :=
               some (GoMap.insert name w.nextQueue (entries (w.clients a).queueItems)) } }) := by
  simp only [GetQueue, h, NewMNSQueue, if_neg hname, lookup_insert_self]

theorem GetQueue_empty_absent (a : Nat) (w : World)
    (h : GoMap.lookup "" (entries (w.clients a).queueItems) = none) :
    (GetQueue a "" w).1 = .panicked ∧
      GoMap.lookup "" (entries ((GetQueue a "" w).2.clients a).queueItems) = none ∧
      (GetQueue a "" w).2.queues = w.queues := by
  have hg : GetQueue a "" w =
      (.panicked,
       { w with
         clients := store w.clients a
           { w.clients a with queueItems := some (entries (w.clients a).queueItems) } }) := by
    simp only [GetQueue, h, NewMNSQueue, ↓reduceIte]
  rw [hg]
  refine ⟨rfl, ?_, rfl⟩
  simp only [store_same]
  exact h

/-- The state `GetQueue` leaves for a name that is not empty: the registry is
allocated and holds the returned pointer under the name. -/
theorem GetQueue_post (a : Nat) (name : String) (w : World) (hname : name ≠ "") :
    ∃ p items, (GetQueue a name w).1 = .returned (some p) ∧
      ((GetQueue a name w).2.clients a).queueItems = some items ∧
      GoMap.lookup name items = some p := by
  cases h : GoMap.lookup name (entries (w.clients a).queueItems) with
  | some p =>
    obtain ⟨items, hitems⟩ := lookup_entries_some _ _ _ h
    rw [hitems] at h
    rw [GetQueue_present a name w items p hitems h]
    exact ⟨p, items, rfl, hitems, h⟩
  | none =>
    rw [GetQueue_absent a name w hname h]
    exact ⟨w.nextQueue, GoMap.insert name w.nextQueue (entries (w.clients a).queueItems), rfl,
      by simp only [store_same], lookup_insert_self _ _ _⟩

theorem GetQueue_frame (a : Nat) (name : String) (w : World) (hname : name ≠ "") :
    (∀ other, other ≠ name →
      GoMap.lookup other (entries ((GetQueue a name w).2.clients a).queueItems) =
        GoMap.lookup other (entries (w.clients a).queueItems)) ∧
    (∀ q, q ≠ w.nextQueue → (GetQueue a name w).2.queues q = w.queues q) ∧
    ((GetQueue a name w).2.clients a).topicItems = (w.clients a).topicItems ∧
    (∀ p, GoMap.lookup name (entries (w.clients a).queueItems) = some p →
      (GetQueue a name w).1 = .returned (some p) ∧ (GetQueue a name w).2.queues = w.queues) ∧
    (GoMap.lookup name (entries (w.clients a).queueItems) = none →
      (GetQueue a name w).1 = .returned (some w.nextQueue) ∧
      (GetQueue a name w).2.queues w.nextQueue =
        ⟨name, ⟨name, (w.clients a).inst⟩, none, 0⟩) := by
  cases h : GoMap.lookup name (entries (w.clients a).queueItems) with
  | some p =>
    obtain ⟨items, hitems⟩ := lookup_entries_some _ _ _ h
    rw [hitems] at h
    rw [GetQueue_present a name w items p hitems h]
    simp
  | none =>
    rw [GetQueue_absent a name w hname h]
    refine ⟨?_, ?_, ?_, ?_, ?_⟩
    · intro other hne
      simp only [store_same, entries]
      exact lookup_insert_other name other _ _ hne
    · intro q hq
      exact store_other _ _ _ _ hq
    · simp [store]
    · intro p hp
      cases hp
    · intro _
      exact ⟨rfl, store_same _ _ _⟩

/-- In a heap in which nothing dangles, `GetQueue` leaves such a heap, and the
object of every entry registered before, under any client, is untouched. -/
theorem GetQueue_allocated (a : Nat) (name : String) (w : World) (hname : name ≠ "")
    (hw : w.Allocated) :
    (GetQueue a name w).2.Allocated ∧
      ∀ b other p, GoMap.lookup other (entries (w.clients b).queueItems) = some p →
        (GetQueue a name w).2.queues p = w.queues p := by
  cases h : GoMap.lookup name (entries (w.clients a).queueItems) with
  | some p =>
    obtain ⟨items, hitems⟩ := lookup_entries_some _ _ _ h
    rw [hitems] at h
    rw [GetQueue_present a name w items p hitems h]
    exact ⟨hw, fun _ _ _ _ => rfl⟩
  | none =>
    rw [GetQueue_absent a name w hname h]
    refine ⟨⟨?_, ?_⟩, ?_⟩
    -- the registry written to
    · intro b n p hp
      show p < w.nextQueue + 1
      by_cases hb : b = a
      · subst hb
        simp only [store_same, entries] at hp
        by_cases hn : n = name
        · subst hn
          rw [lookup_insert_self] at hp
          cases hp
          exact Nat.lt_succ_self _
        · rw [lookup_insert_other name n _ _ hn] at hp
          exact Nat.lt_succ_of_lt (hw.1 b n p hp)
      · simp only [store_other _ _ _ _ hb] at hp
        exact Nat.lt_succ_of_lt (hw.1 b n p hp)
    · intro b n t ht
      show t < w.nextTopic
      by_cases hb : b = a
      · subst hb
        simp only [store_same] at ht
        exact hw.2 b n t ht
      · simp only [store_other _ _ _ _ hb] at ht
        exact hw.2 b n t ht
    · intro b other p hp
      exact store_other _ _ _ _ (Nat.ne_of_lt (hw.1 b other p hp))

theorem GetTopic_present (a : Nat) (name : String) (w : World) (items : GoMap) (p : Nat)
    (h1 : (w.clients a).topicItems = some items) (h2 : GoMap.lookup name items = some p) :
    GetTopic a name w = (.returned (some p), w) := by
  have hc : ({ w.clients a with topicItems := some items } : Client) = w.clients a := by
    rw [← h1]
  simp only [GetTopic, h1, entries, h2, hc, store_self]

theorem GetTopic_absent (a : Nat) (name : String) (w : World) (hname : name ≠ "")
    (h : GoMap.lookup name (entries (w.clients a).topicItems) = none) :
    GetTopic a name w =
      (.returned (some w.nextTopic),
       { w with
         topics := store w.topics w.nextTopic ⟨name, ⟨name, (w.clients a).inst⟩⟩
         nextTopic := w.nextTopic + 1
         clients := store w.clients a
           { w.clients a with
             topicItems :=
               some (GoMap.insert name w.nextTopic (entries (w.clients a).topicItems)) } }) := by
  simp only [GetTopic, h, NewMNSTopic, if_neg hname, lookup_insert_self]

theorem GetTopic_empty_absent (a : Nat) (w : World)
    (h : GoMap.lookup "" (entries (w.clients a).topicItems) = none) :
    (GetTopic a "" w).1 = .panicked ∧
      GoMap.lookup "" (entries ((GetTopic a "" w).2.clients a).topicItems) = none ∧
      (GetTopic a "" w).2.topics = w.topics := by
  have hg : GetTopic a "" w =
      (.panicked,
       { w with
         clients := store w.clients a
           { w.clients a with topicItems := some (entries (w.clients a).topicItems) } }) := by
    simp only [GetTopic, h, NewMNSTopic, ↓reduceIte]
  rw [hg]
  refine ⟨rfl, ?_, rfl⟩
  simp only [store_same]
  exact h

/-- The state `GetTopic` leaves for a name that is not empty: the registry is
allocated and holds the returned pointer under the name. -/
theorem GetTopic_post (a : Nat) (name : String) (w : World) (hname : name ≠ "") :
    ∃ p items, (GetTopic a name w).1 = .returned (some p) ∧
      ((GetTopic a name w).2.clients a).topicItems = some items ∧
      GoMap.lookup name items = some p := by
  cases h : GoMap.lookup name (entries (w.clients a).topicItems) with
  | some p =>
    obtain ⟨items, hitems⟩ := lookup_entries_some _ _ _ h
    rw [hitems] at h
    rw [GetTopic_present a name w items p hitems h]
    exact ⟨p, items, rfl, hitems, h⟩
  | none =>
    rw [GetTopic_absent a name w hname h]
    exact ⟨w.nextTopic, GoMap.insert name w.nextTopic (entries (w.clients a).topicItems), rfl,
      by simp only [store_same], lookup_insert_self _ _ _⟩

theorem GetTopic_frame (a : Nat) (name : String) (w : World) (hname : name ≠ "") :
    (∀ other, other ≠ name →
      GoMap.lookup other (entries ((GetTopic a name w).2.clients a).topicItems) =
        GoMap.lookup other (entries (w.clients a).topicItems)) ∧
    (∀ q, q ≠ w.nextTopic → (GetTopic a name w).2.topics q = w.topics q) ∧
    ((GetTopic a name w).2.clients a).queueItems = (w.clients a).queueItems ∧
    (∀ p, GoMap.lookup name (entries (w.clients a).topicItems) = some p →
      (GetTopic a name w).1 = .returned (some p) ∧ (GetTopic a name w).2.topics = w.topics) ∧
    (GoMap.lookup name (entries (w.clients a).topicItems) = none →
      (GetTopic a name w).1 = .returned (some w.nextTopic) ∧
      (GetTopic a name w).2.topics w.nextTopic =
        ⟨name, ⟨name, (w.clients a).inst⟩⟩) := by
  cases h : GoMap.lookup name (entries (w.clients a).topicItems) with
  | some p =>
    obtain ⟨items, hitems⟩ := lookup_entries_some _ _ _ h
    rw [hitems] at h
    rw [GetTopic_present a name w items p hitems h]
    simp
  | none =>
    rw [GetTopic_absent a name w hname h]
    refine ⟨?_, ?_, ?_, ?_, ?_⟩
    · intro other hne
      simp only [store_same, entries]
      exact lookup_insert_other name other _ _ hne
    · intro q hq
      exact store_other _ _ _ _ hq
    · simp [store]
    · intro p hp
      cases hp
    · intro _
      exact ⟨rfl, store_same _ _ _⟩

/-- In a heap in which nothing dangles, `GetTopic` leaves such a heap, and the
object of every entry registered before, under any client, is untouched. -/
theorem GetTopic_allocated (a : Nat) (name : String) (w : World) (hname : name ≠ "")
    (hw : w.Allocated) :
    (GetTopic a name w).2.Allocated ∧
      ∀ b other p, GoMap.lookup other (entries (w.clients b).topicItems) = some p →
        (GetTopic a name w).2.topics p = w.topics p := by
  cases h : GoMap.lookup name (entries (w.clients a).topicItems) with
  | some p =>
    obtain ⟨items, hitems⟩ := lookup_entries_some _ _ _ h
    rw [hitems] at h
    rw [GetTopic_present a name w items p hitems h]
    exact ⟨hw, fun _ _ _ _ => rfl⟩
  | none =>
    rw [GetTopic_absent a name w hname h]
    refine ⟨⟨?_, ?_⟩, ?_⟩
    swap
    -- the registry written to
    · intro b n p hp
      show p < w.nextTopic + 1
      by_cases hb : b = a
      · subst hb
        simp only [store_same, entries] at hp
        by_cases hn : n = name
        · subst hn
          rw [lookup_insert_self] at hp
          cases hp
          exact Nat.lt_succ_self _
        · rw [lookup_insert_other name n _ _ hn] at hp
          exact Nat.lt_succ_of_lt (hw.2 b n p hp)
      · simp only [store_other _ _ _ _ hb] at hp
        exact Nat.lt_succ_of_lt (hw.2 b n p hp)
    · intro b n t ht
      show t < w.nextQueue
      by_cases hb : b = a
      · subst hb
        simp only [store_same] at ht
        exact hw.1 b n t ht
      · simp only [store_other _ _ _ _ hb] at ht
        exact hw.1 b n t ht
    · intro b other p hp
      exact store_other _ _ _ _ (Nat.ne_of_lt (hw.2 b other p hp))

/-- C6, as stated, fails. On the sample process, `GetQueue` with the empty name
panics in `ali_mns.NewMNSQueue` before the registry is written: it returns no
queue, and no entry is stored under the name afterwards. `GetTopic` does the
same through `ali_mns.NewMNSTopic`. -/
theorem GetQueue_empty_name_panics :
    (GetQueue 0 "" World.configured).1 = .panicked ∧
      GoMap.lookup "" (entries ((GetQueue 0 "" World.configured).2.clients 0).queueItems) =
        none ∧
      (GetTopic 0 "" World.configured).1 = .panicked ∧
      GoMap.lookup "" (entries ((GetTopic 0 "" World.configured).2.clients 0).topicItems) =
        none :=
  ⟨by decide, by decide, by decide, by decide⟩

/-- C6, amended. For every name that is not empty, `Client.GetQueue` is
get-or-create and memoised. It returns a non-nil pointer, which is the entry
stored under the name afterwards; a second call returns the same pointer and
leaves the whole memory as it is; a handler set through the first result is the
handler of the queue the second call returns; entries under other names are
neither changed nor removed, and no queue object at another address than the
fresh one is touched. An entry already there is returned as it is; a missing
one is created at a fresh address, with the name, a transport handle bound to
the name and the client's connection, and no handler. In a heap in which nothing
dangles, the heap stays so and the object of every entry registered before,
under any client, is untouched. The same holds for `Client.GetTopic` and the
topic registry. -/
theorem GetQueue_GetTopic_memoised (a : Nat) (name : String) (w : World)
    (hname : name ≠ "") :
    (∃ p, (GetQueue a name w).1 = .returned (some p) ∧
      GoMap.lookup name (entries ((GetQueue a name w).2.clients a).queueItems) = some p ∧
      GetQueue a name (GetQueue a name w).2 = (.returned (some p), (GetQueue a name w).2) ∧
      ∀ handler,
        (GetQueue a name (SetHandler p handler (GetQueue a name w).2)).1 =
          .returned (some p) ∧
        ((GetQueue a name (SetHandler p handler (GetQueue a name w).2)).2.queues p).Handler =
          handler) ∧
    (∀ other, other ≠ name →
      GoMap.lookup other (entries ((GetQueue a name w).2.clients a).queueItems) =
        GoMap.lookup other (entries (w.clients a).queueItems)) ∧
    (∀ q, q ≠ w.nextQueue → (GetQueue a name w).2.queues q = w.queues q) ∧
    (∀ p, GoMap.lookup name (entries (w.clients a).queueItems) = some p →
      (GetQueue a name w).1 = .returned (some p) ∧ (GetQueue a name w).2.queues = w.queues) ∧
    (GoMap.lookup name (entries (w.clients a).queueItems) = none →
      (GetQueue a name w).1 = .returned (some w.nextQueue) ∧
      (GetQueue a name w).2.queues w.nextQueue =
        ⟨name, ⟨name, (w.clients a).inst⟩, none, 0⟩) ∧
    (w.Allocated →
      (GetQueue a name w).2.Allocated ∧
      ∀ b other p, GoMap.lookup other (entries (w.clients b).queueItems) = some p →
        (GetQueue a name w).2.queues p = w.queues p) ∧
    (∃ t, (GetTopic a name w).1 = .returned (some t) ∧
      GoMap.lookup name (entries ((GetTopic a name w).2.clients a).topicItems) = some t ∧
      GetTopic a name (GetTopic a name w).2 = (.returned (some t), (GetTopic a name w).2)) ∧
    (∀ other, other ≠ name →
      GoMap.lookup other (entries ((GetTopic a name w).2.clients a).topicItems) =
        GoMap.lookup other (entries (w.clients a).topicItems)) ∧
    (∀ t, t ≠ w.nextTopic → (GetTopic a name w).2.topics t = w.topics t) ∧
    (∀ t, GoMap.lookup name (entries (w.clients a).topicItems) = some t →
      (GetTopic a name w).1 = .returned (some t) ∧ (GetTopic a name w).2.topics = w.topics) ∧
    (GoMap.lookup name (entries (w.clients a).topicItems) = none →
      (GetTopic a name w).1 = .returned (some w.nextTopic) ∧
      (GetTopic a name w).2.topics w.nextTopic = ⟨name, ⟨name, (w.clients a).inst⟩⟩) ∧
    (w.Allocated →
      (GetTopic a name w).2.Allocated ∧
      ∀ b other t, GoMap.lookup other (entries (w.clients b).topicItems) = some t →
        (GetTopic a name w).2.topics t = w.topics t) := by
  obtain ⟨q1, q2, _, q4, q5⟩ := GetQueue_frame a name w hname
  obtain ⟨t1, t2, _, t4, t5⟩ := GetTopic_frame a name w hname
  refine ⟨?_, q1, q2, q4, q5, GetQueue_allocated a name w hname, ?_, t1, t2, t4, t5,
    GetTopic_allocated a name w hname⟩
  · obtain ⟨p, items, hp, hitems, hlook⟩ := GetQueue_post a name w hname
    refine ⟨p, hp, ?_, GetQueue_present a name _ items p hitems hlook, ?_⟩
    · rw [hitems]
      exact hlook
    · intro handler
      have hset : ((SetHandler p handler (GetQueue a name w).2).clients a).queueItems =
          some items := hitems
      rw [GetQueue_present a name _ items p hset hlook]
      exact ⟨rfl, by simp [SetHandler, store]⟩
  · obtain ⟨t, items, ht, hitems, hlook⟩ := GetTopic_post a name w hname
    refine ⟨t, ht, ?_, GetTopic_present a name _ items t hitems hlook⟩
    rw [hitems]
    exact hlook

/-- The amended C6 on the sample process: the queue `orders` is created at
address 0, and asked for again it is the queue at address 0. -/
theorem GetQueue_GetTopic_memoised_witness :
    "orders" ≠ "" ∧
      (GetQueue 0 "orders" World.configured).1 = .returned (some 0) ∧
      (GetQueue 0 "orders" (GetQueue 0 "orders" World.configured).2).1 = .returned (some 0) :=
  have h := (GetQueue_GetTopic_memoised 0 "orders" World.configured (by decide)).1
  have h0 : (GetQueue 0 "orders" World.configured).1 = .returned (some 0) := by decide
  ⟨by decide, h0, by
    obtain ⟨p, hp, _, hagain, _⟩ := h
    rw [hagain, ← hp, h0]⟩

end Mns
